import Mathlib

/-!
Verification development for the self-service Kubernetes platform.

The development shallowly embeds the three core components of the repository:

* `Terraform` — the workspace executor (`api/terraform/executor.go`):
  `Apply` creates a working directory named `<module>-<unix-time>` and
  `GetOutputs` resolves the directory with the largest trailing timestamp
  for a module.
* `Api` — the environment lifecycle manager
  (`api/handlers/environment_handler.go` together with the record model in
  `api/models`): CRUD handlers over the record store plus the asynchronous
  provisioning workflow.
* `Controller` — the tenant reconciler (`multi-tenancy/controller/main.go`):
  per-tick convergence of namespaces, quotas, network policies, RBAC
  bindings and mesh labels.

The record store and the cluster API are external collaborators; they are
modelled at the contract level (keyed get/put, keyed object CRUD with
NotFound discrimination), which is the abstraction the specification fixes
for them.  Machine integers in the sources stay well inside 64 bits for
every value the claims touch, so they are modelled as `Int`/`Nat`.
-/

/-! ## Generic association/list helpers shared by the component models -/

/-- First element of `l₁ ++ l₂` satisfying `p` when `l₁` already has one. -/
theorem find?_append_some {α : Type} {p : α → Bool} {l₁ : List α} {a : α}
    (l₂ : List α) (h : l₁.find? p = some a) : (l₁ ++ l₂).find? p = some a := by
  induction l₁ with
  | nil => simp [List.find?] at h
  | cons x xs ih =>
    rw [List.cons_append]
    by_cases hx : p x
    · rw [List.find?_cons_of_pos _ hx] at h ⊢; exact h
    · rw [List.find?_cons_of_neg _ hx] at h ⊢; exact ih h

/-- Searching `l₁ ++ l₂` when `l₁` has no element satisfying `p`. -/
theorem find?_append_none {α : Type} {p : α → Bool} {l₁ : List α}
    (l₂ : List α) (h : l₁.find? p = none) : (l₁ ++ l₂).find? p = l₂.find? p := by
  induction l₁ with
  | nil => simp
  | cons x xs ih =>
    rw [List.cons_append]
    by_cases hx : p x
    · rw [List.find?_cons_of_pos _ hx] at h; simp at h
    · rw [List.find?_cons_of_neg _ hx] at h ⊢; exact ih h

/-- Appending an element that does not satisfy `p` does not change the
search result. -/
theorem find?_append_single {α : Type} (p : α → Bool) (l : List α) (x : α)
    (hx : p x = false) : (l ++ [x]).find? p = l.find? p := by
  cases h : l.find? p with
  | some a => rw [find?_append_some _ h]
  | none =>
    rw [find?_append_none _ h]
    simp [List.find?, hx]

/-- Replace the first element satisfying `p` (models a keyed object update
against a store whose keys are unique). -/
def replaceBy {α : Type} (p : α → Bool) (new : α) : List α → List α
  | [] => []
  | x :: xs => if p x then new :: xs else x :: replaceBy p new xs

/-- After a keyed update, looking the key up returns the new object. -/
theorem find?_replaceBy {α : Type} {p : α → Bool} {l : List α} {a : α}
    (new : α) (h : l.find? p = some a) (hnew : p new = true) :
    (replaceBy p new l).find? p = some new := by
  induction l with
  | nil => simp [List.find?] at h
  | cons x xs ih =>
    by_cases hx : p x
    · simp [replaceBy, hx, List.find?, hnew]
    · simp only [Bool.not_eq_true] at hx
      simp [replaceBy, hx, List.find?] at h ⊢
      exact ih h

/-- A keyed update leaves lookups under a disjoint key unchanged. -/
theorem find?_replaceBy_frame {α : Type} {p q : α → Bool} {l : List α}
    (new : α) (hdisj : ∀ x, p x = true → q x = false) (hnew : q new = false) :
    (replaceBy p new l).find? q = l.find? q := by
  induction l with
  | nil => simp [replaceBy]
  | cons x xs ih =>
    by_cases hx : p x
    · have hqx : q x = false := hdisj x hx
      simp [replaceBy, hx, List.find?, hnew, hqx]
    · simp only [Bool.not_eq_true] at hx
      simp [replaceBy, hx, List.find?]
      by_cases hqx : q x
      · simp [hqx]
      · simp only [Bool.not_eq_true] at hqx
        simp [hqx, ih]

/-- Replacing the first match with the very object already stored there is a
no-op. -/
theorem replaceBy_self {α : Type} {p : α → Bool} {l : List α} {a : α}
    (h : l.find? p = some a) : replaceBy p a l = l := by
  induction l with
  | nil => rfl
  | cons x xs ih =>
    by_cases hx : p x
    · rw [List.find?_cons_of_pos _ hx] at h
      obtain rfl : x = a := by exact Option.some.inj h
      simp [replaceBy, hx]
    · rw [List.find?_cons_of_neg _ hx] at h
      simp only [Bool.not_eq_true] at hx
      simp [replaceBy, hx, ih h]

/-- Association-list lookup (models reading one key of a Go string map). -/
def lookupKV : List (String × String) → String → Option String
  | [], _ => none
  | (k', v) :: rest, k => if k' == k then some v else lookupKV rest k

/-- Association-list update (models a Go string-map assignment). -/
def setKV : List (String × String) → String → String → List (String × String)
  | [], k, v => [(k, v)]
  | (k', v') :: rest, k, v =>
    if k' == k then (k, v) :: rest else (k', v') :: setKV rest k v

theorem lookupKV_setKV (l : List (String × String)) (k v : String) :
    lookupKV (setKV l k v) k = some v := by
  induction l with
  | nil => simp [setKV, lookupKV]
  | cons x xs ih =>
    by_cases hk : x.1 == k
    · simp [setKV, hk, lookupKV]
    · simp only [Bool.not_eq_true] at hk
      simp [setKV, hk, lookupKV, ih]

/-- Writing the value a key already holds does not change the map. -/
theorem setKV_self {l : List (String × String)} {k v : String}
    (h : lookupKV l k = some v) : setKV l k v = l := by
  induction l with
  | nil => simp [lookupKV] at h
  | cons x xs ih =>
    by_cases hk : x.1 == k
    · obtain ⟨k', v'⟩ := x
      simp only at hk
      simp [lookupKV, hk] at h
      simp [setKV, hk]
      constructor
      · exact (eq_of_beq hk).symm
      · exact h.symm
    · simp only [Bool.not_eq_true] at hk
      simp [lookupKV, hk] at h
      simp [setKV, hk, ih h]

/-- A prefix made longer still being a prefix forces the shorter prefix. -/
theorem isPrefixOf_append_left {p q l : List Char}
    (h : List.isPrefixOf (p ++ q) l = true) : List.isPrefixOf p l = true := by
  induction p generalizing l with
  | nil => simp [List.isPrefixOf]
  | cons a as ih =>
    cases l with
    | nil => simp [List.isPrefixOf] at h
    | cons b bs =>
      simp only [List.cons_append, List.isPrefixOf, Bool.and_eq_true] at h ⊢
      exact ⟨h.1, ih h.2⟩

/-- A single output value of the external infrastructure tool
(`map[string]interface{}` entry): either a JSON string or some other JSON
value, which is all the handler's type assertions distinguish. -/
inductive TfValue where
  | str (s : String)
  | other
deriving DecidableEq

namespace Terraform

/-! ## Workspace executor (`api/terraform/executor.go`)

`Executor.Apply` creates a working directory
`fmt.Sprintf("%s-%d", module, time.Now().Unix())` under the shared state
path, and `Executor.GetOutputs` lists the state path, keeps the directory
whose trailing `-`-separated component parses as the largest positive
integer among those prefixed with `module + "-"`, and reads that
directory's outputs.  The model records, for each working directory, a
ghost annotation `createdBy` naming the environment whose `Apply` created
it; the executor code itself never reads this field (it has no notion of a
calling environment), which is exactly what claim C1 is about. -/

/-- One working directory under the executor's state path. -/
structure WorkDir where
  /-- directory name, `module ++ "-" ++ unix-time` when created by `Apply` -/
  name : String
  /-- ghost provenance annotation: the environment whose `Apply` created it -/
  createdBy : String
  /-- the tool outputs that `terraform output -json` yields in this directory -/
  outputs : List (String × TfValue)
deriving DecidableEq

/-- The shared state path `/tmp/terraform-state`. -/
structure TfStateDir where
  dirs : List WorkDir
deriving DecidableEq

/-- `strings.HasPrefix s pre` of the Go standard library. -/
def strStartsWith (s pre : String) : Bool :=
  pre.data.isPrefixOf s.data

/-- `strings.Split s sep` for a one-character separator, on the character
list of the string. -/
def splitOnChar (sep : Char) : List Char → List (List Char)
  | [] => [[]]
  | c :: cs =>
    let rest := splitOnChar sep cs
    if c == sep then [] :: rest
    else
      match rest with
      | [] => [[c]]
      | r :: rs => (c :: r) :: rs

/-- `strings.Split s "-"` (the separator the executor uses is the single
character `-`). -/
def splitDash (s : String) : List String :=
  (splitOnChar '-' s.data).map String.mk

/-- Decimal value of a digit run. -/
def digitsToNat : List Char → Nat
  | [] => 0
  | c :: cs => digitsToNatAux (c.toNat - '0'.toNat) cs
where
  digitsToNatAux (acc : Nat) : List Char → Nat
    | [] => acc
    | c :: cs => digitsToNatAux (acc * 10 + (c.toNat - '0'.toNat)) cs

/-- `StringToInt64`: `fmt.Sscanf(s, "%d", &result)` parses an optional sign
followed by a non-empty run of leading digits (directory names produced by
`Apply` never start with white space, so `Sscanf`'s space skipping cannot
fire). -/
def StringToInt64 (s : String) : Option Int :=
  match s.data with
  | [] => none
  | c :: cs =>
    let signed : Bool := c == '-'
    let body := if c == '-' || c == '+' then cs else c :: cs
    let digits := body.takeWhile Char.isDigit
    if digits.isEmpty then none
    else some (if signed then -(digitsToNat digits : Int) else (digitsToNat digits : Int))

/-- The working-directory name `fmt.Sprintf("%s-%d", module, unixTime)`. -/
def applyWorkDirName (module : String) (unixTime : Int) : String :=
  module ++ "-" ++ toString unixTime

/-- `Executor.Apply`: creates the timestamped working directory and runs
init/apply there (the subprocess effects are summarised by the outputs the
apply leaves behind in that directory).  `envId` is the ghost provenance
annotation for the caller. -/
def Apply (st : TfStateDir) (module : String) (unixTime : Int) (envId : String)
    (outs : List (String × TfValue)) : TfStateDir :=
  { dirs := st.dirs ++ [⟨applyWorkDirName module unixTime, envId, outs⟩] }

/-- Byte-lexicographic order on character lists (Go compares file names as
byte strings; the names built here are ASCII, where code-point order and
byte order agree). -/
def charListLt : List Char → List Char → Bool
  | [], [] => false
  | [], _ :: _ => true
  | _ :: _, [] => false
  | a :: as, b :: bs =>
    if a.toNat < b.toNat then true
    else if b.toNat < a.toNat then false
    else charListLt as bs

/-- Lexicographic file-name order. -/
def strLt (a b : String) : Bool :=
  charListLt a.data b.data

/-- Insert into a name-sorted directory listing. -/
def insertSorted (d : WorkDir) : List WorkDir → List WorkDir
  | [] => [d]
  | x :: xs => if strLt d.name x.name then d :: x :: xs else x :: insertSorted d xs

/-- `ioutil.ReadDir` returns entries sorted by filename. -/
def sortByName (l : List WorkDir) : List WorkDir :=
  l.foldr insertSorted []

theorem mem_insertSorted {x d : WorkDir} {l : List WorkDir}
    (h : x ∈ insertSorted d l) : x = d ∨ x ∈ l := by
  induction l with
  | nil => simp [insertSorted] at h; simp [h]
  | cons y ys ih =>
    simp only [insertSorted] at h
    by_cases hlt : strLt d.name y.name = true
    · simp [hlt] at h
      rcases h with h | h | h
      · exact Or.inl h
      · exact Or.inr (by simp [h])
      · exact Or.inr (by simp [h])
    · simp [hlt] at h
      rcases h with h | h
      · exact Or.inr (by simp [h])
      · rcases ih h with h' | h'
        · exact Or.inl h'
        · exact Or.inr (by simp [h'])

theorem mem_sortByName {x : WorkDir} {l : List WorkDir}
    (h : x ∈ sortByName l) : x ∈ l := by
  induction l with
  | nil => simp [sortByName] at h
  | cons y ys ih =>
    simp only [sortByName, List.foldr] at h
    rcases mem_insertSorted h with h' | h'
    · simp [h']
    · exact List.mem_cons_of_mem _ (ih h')

/-- One step of `GetOutputs`' directory scan: keep the directory whose
trailing component parses as the largest timestamp seen so far (strictly
larger, starting from `0`, exactly as the Go loop does). -/
def scanDir (module : String) (acc : Option WorkDir × Int) (d : WorkDir) :
    Option WorkDir × Int :=
  if strStartsWith d.name (module ++ "-") then
    match (splitDash d.name).get? 1 with
    | none => acc
    | some part =>
      match StringToInt64 part with
      | none => acc
      | some ts => if ts > acc.2 then (some d, ts) else acc
  else acc

/-- The directory `GetOutputs` selects for a module, if any.  The Go code
keeps the directory *name*; the model carries the directory itself, which
is equivalent because the name identifies it in the listing. -/
def latestWorkDir (st : TfStateDir) (module : String) : Option WorkDir :=
  ((sortByName st.dirs).foldl (scanDir module) (none, 0)).1

/-- `Executor.GetOutputs`: resolve the latest directory for the module and
read its outputs; error when no directory qualifies. -/
def GetOutputs (st : TfStateDir) (module : String) :
    Except String (List (String × TfValue)) :=
  match latestWorkDir st module with
  | none => .error ("no state directory found for module " ++ module)
  | some d => .ok d.outputs

/-! ### C1 scenario: two environments provisioning through the module "aws" -/

/-- Outputs of environment A's apply. -/
def outputsOfA : List (String × TfValue) := [("kubeconfig", TfValue.str "kubeconfig-of-A")]

/-- Outputs of environment B's apply. -/
def outputsOfB : List (String × TfValue) := [("kubeconfig", TfValue.str "kubeconfig-of-B")]

/-- State after environment A applies module "aws" at unix time 1700000000
and environment B applies the same module at unix time 1700000600. -/
def stateAfterAB : TfStateDir :=
  Apply (Apply ⟨[]⟩ "aws" 1700000000 "env-A" outputsOfA) "aws" 1700000600 "env-B" outputsOfB

/-! ### Lemmas about the directory scan -/

/-- If `module` is not a prefix of a name then neither is `module ++ "-"`. -/
theorem strStartsWith_extend {n m : String} (h : strStartsWith n m = false) :
    strStartsWith n (m ++ "-") = false := by
  unfold strStartsWith at h ⊢
  cases hx : List.isPrefixOf (m ++ "-").data n.data
  · rfl
  · exfalso
    rw [String.data_append] at hx
    have hm : List.isPrefixOf m.data n.data = true := isPrefixOf_append_left hx
    rw [h] at hm
    exact Bool.false_ne_true hm

/-- The directory scan ignores every entry not prefixed with
`module ++ "-"`. -/
theorem foldl_scanDir_of_no_candidate (module : String) (l : List WorkDir)
    (acc : Option WorkDir × Int)
    (h : ∀ d ∈ l, strStartsWith d.name (module ++ "-") = false) :
    l.foldl (scanDir module) acc = acc := by
  induction l generalizing acc with
  | nil => rfl
  | cons d ds ih =>
    have hd : strStartsWith d.name (module ++ "-") = false := h d (by simp)
    rw [List.foldl_cons]
    have hstep : scanDir module acc d = acc := by simp [scanDir, hd]
    rw [hstep]
    exact ih acc (fun x hx => h x (List.mem_cons_of_mem _ hx))

/-- C1: with two environments provisioning through the same module, the
workspace resolution of `GetOutputs` picks the directory with the largest
trailing timestamp regardless of which environment created it: after
environment A applies "aws" and environment B applies "aws" later,
`GetOutputs` resolves B's directory and returns B's outputs, so a lookup
on behalf of A receives the outputs produced by B's apply.  This refutes
the claim that the resolution always yields the caller's own directory. -/
theorem c1_getOutputs_crosses_environments :
    (latestWorkDir stateAfterAB "aws").map WorkDir.createdBy = some "env-B" ∧
    GetOutputs stateAfterAB "aws" = .ok outputsOfB ∧
    outputsOfB ≠ outputsOfA := by
  refine ⟨by decide, by rfl, by decide⟩

/-- C10: when no directory under the state path is prefixed with the module
name (no prior `Apply` for it), `GetOutputs` returns the
"no state directory found" error rather than an empty output map. -/
theorem c10_missing_module_errors (st : TfStateDir) (module : String)
    (h : ∀ d ∈ st.dirs, strStartsWith d.name module = false) :
    GetOutputs st module = .error ("no state directory found for module " ++ module) := by
  have hs : ∀ d ∈ sortByName st.dirs, strStartsWith d.name (module ++ "-") = false := by
    intro d hd
    exact strStartsWith_extend (h d (mem_sortByName hd))
  unfold GetOutputs latestWorkDir
  rw [foldl_scanDir_of_no_candidate module _ _ hs]

/-- A state whose only directory belongs to a different module. -/
def noAwsState : TfStateDir :=
  ⟨[⟨"other-1700000000", "env-X", [("kubeconfig", TfValue.str "kc")]⟩]⟩

/-- C10 witness: concrete instance of `c10_missing_module_errors`. -/
theorem c10_missing_module_errors_witness :
    (∀ d ∈ noAwsState.dirs, strStartsWith d.name "aws" = false) ∧
    GetOutputs noAwsState "aws" = .error ("no state directory found for module " ++ "aws") :=
  ⟨by decide, c10_missing_module_errors noAwsState "aws" (by decide)⟩

end Terraform

namespace Api

/-! ## Environment lifecycle manager
(`api/handlers/environment_handler.go`, record model `api/models`)

The DynamoDB record store is an external collaborator; per the
specification its contract is keyed get, keyed put and a filtered scan
whose soft-delete filter (`attribute_not_exists(DeletedAt)`) selects the
records whose `DeletedAt` is unset.  Go slices/maps that the handler
compares against `nil` are modelled as `Option` of a list; times are
abstract `Nat` instants supplied by the caller in place of
`time.Now()`. -/

/-- `models.ResourceLimits`. -/
structure ResourceLimits where
  cpu : String
  memory : String
  storage : String
  maxNodeCount : Int
  maxNamespaces : Int
  maxLoadBalancers : Int
deriving DecidableEq

/-- `models.NetworkPolicy`. -/
structure NetworkPolicy where
  allowIngressFromCIDR : List String
  allowEgressToCIDR : List String
  defaultDenyIngress : Bool
  defaultDenyEgress : Bool
  allowIntraNamespace : Bool
  allowCrossNamespace : Bool
  allowExternalServices : List String
deriving DecidableEq

/-- `models.ServiceMeshConfig`. -/
structure ServiceMeshConfig where
  enabled : Bool
  mtlsMode : String
  enableTracing : Bool
  enableMetrics : Bool
  enableCircuitBreaker : Bool
  enableOutlierDetection : Bool
  enableFaultInjection : Bool
  enableRequestThrottling : Bool
  enableVirtualServiceRBAC : Bool
deriving DecidableEq

/-- `models.MonitoringConfig`. -/
structure MonitoringConfig where
  enablePrometheus : Bool
  enableGrafana : Bool
  enableAlertManager : Bool
  scrapeInterval : String
  retentionPeriod : String
  defaultAlertThreshold : String
deriving DecidableEq

/-- `models.GitOpsConfig`. -/
structure GitOpsConfig where
  enabled : Bool
  gitRepository : String
  gitBranch : String
  syncInterval : String
  automatedSync : Bool
  syncTimeout : String
  gitCredentialId : String
deriving DecidableEq

/-- `models.EnvironmentRequest` (already past the delegated validator). -/
structure EnvironmentRequest where
  name : String
  description : String
  templateId : String
  userId : String
  resourceLimits : ResourceLimits
  networkPolicy : Option NetworkPolicy
  serviceMesh : Option ServiceMeshConfig
  monitoring : Option MonitoringConfig
  gitOps : Option GitOpsConfig
  addons : Option (List String)
  tags : Option (List (String × String))
deriving DecidableEq

/-- `models.Environment`, the persisted record. -/
structure Environment where
  id : String
  name : String
  description : String
  templateId : String
  userId : String
  resourceLimits : ResourceLimits
  networkPolicy : Option NetworkPolicy
  serviceMesh : Option ServiceMeshConfig
  monitoring : Option MonitoringConfig
  gitOps : Option GitOpsConfig
  addons : Option (List String)
  tags : Option (List (String × String))
  status : String
  statusMessage : String
  clusterName : String
  kubeConfig : String
  consoleURL : String
  createdAt : Nat
  updatedAt : Nat
  deletedAt : Option Nat
deriving DecidableEq

/-- `models.EnvironmentPatch`: every field optional. -/
structure EnvironmentPatch where
  description : Option String
  resourceLimits : Option ResourceLimits
  networkPolicy : Option NetworkPolicy
  serviceMesh : Option ServiceMeshConfig
  monitoring : Option MonitoringConfig
  gitOps : Option GitOpsConfig
  addons : Option (List String)
  tags : Option (List (String × String))
deriving DecidableEq

/-- `dynamodb GetItem` on the environments table, keyed by `ID`. -/
def dbGet (db : List Environment) (id : String) : Option Environment :=
  db.find? (fun e => e.id == id)

/-- `dynamodb PutItem`: replace the record with the same key, or append. -/
def dbPut (db : List Environment) (e : Environment) : List Environment :=
  if db.any (fun x => x.id == e.id) then
    db.map (fun x => if x.id == e.id then e else x)
  else db ++ [e]

/-- `ListEnvironments`: scan with the optional `userId`/`status` filters
(empty string means the query parameter was absent) and the always-present
soft-delete filter `attribute_not_exists(DeletedAt)`. -/
def ListEnvironments (db : List Environment) (userID status : String) : List Environment :=
  db.filter (fun e =>
    (userID == "" || e.userId == userID) &&
    (status == "" || e.status == status) &&
    e.deletedAt.isNone)

/-- The record `CreateEnvironment` builds from a valid request: fresh
`envID` (from `uuid.New()`), `ClusterName` derived from the first 8
characters of that ID alone, status `CREATING`. -/
def mkEnvironment (req : EnvironmentRequest) (envID : String) (now : Nat) : Environment :=
  { id := envID
    name := req.name
    description := req.description
    templateId := req.templateId
    userId := req.userId
    resourceLimits := req.resourceLimits
    networkPolicy := req.networkPolicy
    serviceMesh := req.serviceMesh
    monitoring := req.monitoring
    gitOps := req.gitOps
    addons := req.addons
    tags := req.tags
    status := "CREATING"
    statusMessage := "Environment creation initiated"
    clusterName := "env-" ++ envID.take 8
    kubeConfig := ""
    consoleURL := ""
    createdAt := now
    updatedAt := now
    deletedAt := none }

/-- `CreateEnvironment` (HTTP path, before the goroutine): persist the
CREATING record and return it immediately. -/
def CreateEnvironment (db : List Environment) (req : EnvironmentRequest)
    (envID : String) (now : Nat) : List Environment × Environment :=
  (dbPut db (mkEnvironment req envID now), mkEnvironment req envID now)

/-- `GetEnvironment`: `none` models the NotFound response, both for a
missing key and for a soft-deleted record. -/
def GetEnvironment (db : List Environment) (id : String) : Option Environment :=
  match dbGet db id with
  | none => none
  | some e => if e.deletedAt.isSome then none else some e

/-- The composite view `getEnvironmentDetailedStatus` builds; only the two
fields taken from the record are shown — the remaining fields of
`models.EnvironmentStatus` are constant mock data in the source and are
not referenced by any claim. -/
structure EnvironmentStatusView where
  status : String
  statusMessage : String
deriving DecidableEq

/-- `getEnvironmentDetailedStatus` restricted to its record-derived part. -/
def getEnvironmentDetailedStatus (e : Environment) : EnvironmentStatusView :=
  { status := e.status, statusMessage := e.statusMessage }

/-- `GetEnvironmentStatus`: NotFound (`none`) for a missing or
soft-deleted record, otherwise the detailed status view. -/
def GetEnvironmentStatus (db : List Environment) (id : String) :
    Option EnvironmentStatusView :=
  match dbGet db id with
  | none => none
  | some e =>
    if e.deletedAt.isSome then none else some (getEnvironmentDetailedStatus e)

/-- The partial merge of `UpdateEnvironment`: each present patch field
overwrites the record field, each absent (`nil`) field leaves it
unchanged — the `Option.getD`/`Option.or` forms are the if-chains of the
Go handler. -/
def applyPatch (e : Environment) (p : EnvironmentPatch) : Environment :=
  { e with
    description := p.description.getD e.description
    resourceLimits := p.resourceLimits.getD e.resourceLimits
    networkPolicy := p.networkPolicy.or e.networkPolicy
    serviceMesh := p.serviceMesh.or e.serviceMesh
    monitoring := p.monitoring.or e.monitoring
    gitOps := p.gitOps.or e.gitOps
    addons := p.addons.or e.addons
    tags := p.tags.or e.tags }

/-- `UpdateEnvironment` (HTTP path, before the goroutine): load, reject a
missing or soft-deleted record with NotFound (`none`), otherwise merge the
patch, stamp `UPDATING`, persist the merged record and return it. -/
def UpdateEnvironment (db : List Environment) (id : String)
    (p : EnvironmentPatch) (now : Nat) : List Environment × Option Environment :=
  match dbGet db id with
  | none => (db, none)
  | some e =>
    if e.deletedAt.isSome then (db, none)
    else
      let m := { applyPatch e p with
                   updatedAt := now
                   status := "UPDATING"
                   statusMessage := "Environment update initiated" }
      (dbPut db m, some m)

/-- `DeleteEnvironment` (HTTP path, before the goroutine): reject a
missing or already soft-deleted record, otherwise stamp DELETING and set
`DeletedAt` in the same persisted write. -/
def DeleteEnvironment (db : List Environment) (id : String) (now : Nat) :
    List Environment × Bool :=
  match dbGet db id with
  | none => (db, false)
  | some e =>
    if e.deletedAt.isSome then (db, false)
    else
      let e' := { e with
                    status := "DELETING"
                    statusMessage := "Environment deletion initiated"
                    updatedAt := now
                    deletedAt := some now }
      (dbPut db e', true)

/-! ### Asynchronous workflows -/

/-- What `updateEnvironmentStatus` writes into a record. -/
def statusPatch (status message : String) (now : Nat) (e : Environment) : Environment :=
  { e with status := status, statusMessage := message, updatedAt := now }

/-- `updateEnvironmentStatus`: `UpdateItem SET Status, StatusMessage,
UpdatedAt` keyed by ID (workflows only run for records they just read, so
the upsert-on-missing-key corner of `UpdateItem` never fires). -/
def updateEnvironmentStatus (db : List Environment) (envID status message : String)
    (now : Nat) : List Environment :=
  db.map (fun e => if e.id == envID then statusPatch status message now e else e)

/-- What the final `UpdateItem` of a successful provisioning run writes. -/
def provisionedPatch (kubeconfig consoleURL : String) (now : Nat)
    (e : Environment) : Environment :=
  { e with
      kubeConfig := kubeconfig
      consoleURL := consoleURL
      status := "ACTIVE"
      statusMessage := "Environment provisioned successfully"
      updatedAt := now }

/-- `UpdateItem SET KubeConfig, ConsoleURL, Status=ACTIVE, ...` keyed by ID. -/
def setProvisioned (db : List Environment) (envID kubeconfig consoleURL : String)
    (now : Nat) : List Environment :=
  db.map (fun e => if e.id == envID then provisionedPatch kubeconfig consoleURL now e else e)

/-- The outcomes of the executor and cluster-bootstrap calls one
provisioning run makes (the executor itself is modelled in `Terraform`;
the workflow consumes its results through this interface). -/
structure ProvisionWorld where
  /-- result of `terraformExecutor.Apply("aws", vars)` -/
  applyResult : Except String Unit
  /-- result of `terraformExecutor.GetOutputs("aws")` -/
  outputsResult : Except String (List (String × TfValue))
  /-- result of `configureKubernetesResources` -/
  configureResult : Except String Unit

/-- How often the workflow invoked each executor operation (for the
no-automatic-retry part of the failure contract). -/
structure ProvisionTrace where
  applyCalls : Nat
  getOutputsCalls : Nat
deriving DecidableEq

/-- Go type assertion `outputs[key].(string)`: `some` exactly when the key
is present with a string value. -/
def lookupStr (outs : List (String × TfValue)) (key : String) : Option String :=
  match outs.find? (fun kv => kv.1 == key) with
  | some (_, TfValue.str s) => some s
  | _ => none

/-- `provisionEnvironment`: the asynchronous create workflow.  Sets
PROVISIONING, applies, reads outputs, extracts the kubeconfig and console
URL, bootstraps the cluster, then persists ACTIVE with the credentials; on
any step failure it persists ERROR with a message derived from the failure
and stops.  It returns only the new store and its call trace — being a
goroutine, it has no channel back to the HTTP caller. -/
def provisionEnvironment (db : List Environment) (env : Environment)
    (w : ProvisionWorld) (now : Nat) : List Environment × ProvisionTrace :=
  let db1 := updateEnvironmentStatus db env.id "PROVISIONING" "Provisioning resources" now
  match w.applyResult with
  | .error e =>
    (updateEnvironmentStatus db1 env.id "ERROR"
      ("Failed to provision resources: " ++ e) now, ⟨1, 0⟩)
  | .ok _ =>
    match w.outputsResult with
    | .error e =>
      (updateEnvironmentStatus db1 env.id "ERROR"
        ("Failed to get provisioning outputs: " ++ e) now, ⟨1, 1⟩)
    | .ok outs =>
      match lookupStr outs "kubeconfig" with
      | none =>
        (updateEnvironmentStatus db1 env.id "ERROR" "Failed to get kubeconfig" now, ⟨1, 1⟩)
      | some kubeconfig =>
        let consoleURL := (lookupStr outs "console_url").getD ""
        match w.configureResult with
        | .error e =>
          (updateEnvironmentStatus db1 env.id "ERROR"
            ("Failed to configure Kubernetes resources: " ++ e) now, ⟨1, 1⟩)
        | .ok _ =>
          (setProvisioned db1 env.id kubeconfig consoleURL now, ⟨1, 1⟩)

/-- `updateEnvironment` (async workflow; body is an omitted stub in the
source that unconditionally reports success). -/
def updateEnvironmentWorkflow (db : List Environment) (envID : String) (now : Nat) :
    List Environment :=
  updateEnvironmentStatus db envID "ACTIVE" "Environment updated successfully" now

/-- `deleteEnvironment` (async workflow; body is an omitted stub in the
source that unconditionally reports success). -/
def deleteEnvironmentWorkflow (db : List Environment) (envID : String) (now : Nat) :
    List Environment :=
  updateEnvironmentStatus db envID "DELETED" "Environment deleted successfully" now

/-- One `POST /environments` request together with the goroutine it
spawns: the HTTP response (second component) is computed before the
workflow runs and is therefore independent of the workflow's outcome. -/
def createEnvironmentFlow (db : List Environment) (req : EnvironmentRequest)
    (envID : String) (now : Nat) (w : ProvisionWorld) (nowW : Nat) :
    (List Environment × ProvisionTrace) × Environment :=
  let (db1, env) := CreateEnvironment db req envID now
  (provisionEnvironment db1 env w nowW, env)

/-! ### Store lemmas -/

/-- A keyed map that rewrites only the record with the key, through a
function that preserves the key, commutes with the keyed get. -/
theorem dbGet_keyedMap (db : List Environment) (id : String)
    (g : Environment → Environment) (hg : ∀ x, (g x).id = x.id) :
    dbGet (db.map (fun x => if x.id == id then g x else x)) id =
      (dbGet db id).map g := by
  induction db with
  | nil => rfl
  | cons x xs ih =>
    unfold dbGet at ih ⊢
    by_cases hx : (x.id == id) = true
    · have hgx : ((g x).id == id) = true := by rw [hg x]; exact hx
      simp only [List.map_cons, hx, if_true, List.find?, hgx]
      simp
    · have hx' : (x.id == id) = false := by simpa using hx
      simp only [List.map_cons, hx', Bool.false_eq_true, if_false, List.find?]
      exact ih

theorem dbGet_updateEnvironmentStatus (db : List Environment)
    (id status message : String) (now : Nat) :
    dbGet (updateEnvironmentStatus db id status message now) id =
      (dbGet db id).map (statusPatch status message now) :=
  dbGet_keyedMap db id (statusPatch status message now) (fun _ => rfl)

theorem dbGet_setProvisioned (db : List Environment)
    (id kubeconfig consoleURL : String) (now : Nat) :
    dbGet (setProvisioned db id kubeconfig consoleURL now) id =
      (dbGet db id).map (provisionedPatch kubeconfig consoleURL now) :=
  dbGet_keyedMap db id (provisionedPatch kubeconfig consoleURL now) (fun _ => rfl)

/-! ### Claim theorems about the lifecycle manager -/

/-- C3: a record whose `DeletedAt` is set never appears in
`ListEnvironments` (under any filter), and `GetEnvironment` /
`GetEnvironmentStatus` on its ID answer NotFound (`none`) instead of the
record. -/
theorem c3_soft_deleted_invisible (db : List Environment) (userID status : String)
    (e : Environment) (hdel : e.deletedAt ≠ none) :
    e ∉ ListEnvironments db userID status ∧
    (dbGet db e.id = some e →
      GetEnvironment db e.id = none ∧ GetEnvironmentStatus db e.id = none) := by
  have hsome : e.deletedAt.isSome = true := by
    cases hd : e.deletedAt with
    | none => exact absurd hd hdel
    | some _ => rfl
  constructor
  · intro hmem
    unfold ListEnvironments at hmem
    have hcond := (List.mem_filter.mp hmem).2
    simp only [Bool.and_eq_true] at hcond
    have hnone : e.deletedAt.isNone = true := hcond.2
    rw [Option.isNone_iff_eq_none] at hnone
    exact hdel hnone
  · intro hget
    constructor
    · unfold GetEnvironment
      rw [hget]
      simp [hsome]
    · unfold GetEnvironmentStatus
      rw [hget]
      simp [hsome]

/-- A soft-deleted demo record for the C3 witness. -/
def softDeletedDemo : Environment :=
  { id := "id-1", name := "n", description := "", templateId := "t"
    userId := "u", resourceLimits := ⟨"1", "1Gi", "10Gi", 1, 1, 0⟩
    networkPolicy := none, serviceMesh := none, monitoring := none
    gitOps := none, addons := none, tags := none
    status := "DELETING", statusMessage := "", clusterName := "env-id-1"
    kubeConfig := "", consoleURL := "", createdAt := 0, updatedAt := 5
    deletedAt := some 5 }

/-- C3 witness: concrete instance of `c3_soft_deleted_invisible`. -/
theorem c3_soft_deleted_invisible_witness :
    softDeletedDemo.deletedAt ≠ none ∧
    (softDeletedDemo ∉ ListEnvironments [softDeletedDemo] "" "" ∧
      (dbGet [softDeletedDemo] softDeletedDemo.id = some softDeletedDemo →
        GetEnvironment [softDeletedDemo] softDeletedDemo.id = none ∧
        GetEnvironmentStatus [softDeletedDemo] softDeletedDemo.id = none)) :=
  ⟨by decide, c3_soft_deleted_invisible [softDeletedDemo] "" "" softDeletedDemo (by decide)⟩

/-- C7: `UpdateEnvironment` on a soft-deleted record answers NotFound and
persists nothing; on a live record it applies exactly the present patch
fields, leaves every other field of the record unchanged (ID, Name,
TemplateID, owner `UserID`, ClusterName, CreatedAt, KubeConfig,
ConsoleURL, DeletedAt), stamps `UPDATING`, persists the merged record and
returns that same merged record. -/
theorem c7_update_partial_merge (db : List Environment) (id : String)
    (p : EnvironmentPatch) (now : Nat) (e : Environment)
    (hfind : dbGet db id = some e) :
    (e.deletedAt ≠ none → UpdateEnvironment db id p now = (db, none)) ∧
    (e.deletedAt = none →
      ∃ m, UpdateEnvironment db id p now = (dbPut db m, some m) ∧
        m.id = e.id ∧ m.name = e.name ∧ m.templateId = e.templateId ∧
        m.userId = e.userId ∧ m.clusterName = e.clusterName ∧
        m.createdAt = e.createdAt ∧ m.kubeConfig = e.kubeConfig ∧
        m.consoleURL = e.consoleURL ∧ m.deletedAt = none ∧
        m.description = p.description.getD e.description ∧
        m.resourceLimits = p.resourceLimits.getD e.resourceLimits ∧
        m.networkPolicy = p.networkPolicy.or e.networkPolicy ∧
        m.serviceMesh = p.serviceMesh.or e.serviceMesh ∧
        m.monitoring = p.monitoring.or e.monitoring ∧
        m.gitOps = p.gitOps.or e.gitOps ∧
        m.addons = p.addons.or e.addons ∧
        m.tags = p.tags.or e.tags ∧
        m.status = "UPDATING" ∧ m.updatedAt = now) := by
  constructor
  · intro hdel
    have hsome : e.deletedAt.isSome = true := by
      cases hd : e.deletedAt with
      | none => exact absurd hd hdel
      | some _ => rfl
    unfold UpdateEnvironment
    rw [hfind]
    simp [hsome]
  · intro hdel
    have hsome' : e.deletedAt.isSome = false := by rw [hdel]; rfl
    unfold UpdateEnvironment
    rw [hfind]
    simp only [hsome', Bool.false_eq_true, if_false]
    exact ⟨_, rfl, rfl, rfl, rfl, rfl, rfl, rfl, rfl, rfl, hdel, rfl, rfl, rfl,
      rfl, rfl, rfl, rfl, rfl, rfl, rfl⟩

/-- A live demo record for the C7 witness. -/
def liveDemo : Environment :=
  { softDeletedDemo with id := "id-2", status := "ACTIVE", deletedAt := none }

/-- A demo patch touching only the description and the tags. -/
def demoPatch : EnvironmentPatch :=
  { description := some "new description", resourceLimits := none
    networkPolicy := none, serviceMesh := none, monitoring := none
    gitOps := none, addons := none, tags := some [("team", "alpha")] }

/-- C7 witness: concrete instance of `c7_update_partial_merge`. -/
theorem c7_update_partial_merge_witness :
    dbGet [liveDemo] "id-2" = some liveDemo ∧
    ((liveDemo.deletedAt ≠ none →
        UpdateEnvironment [liveDemo] "id-2" demoPatch 7 = ([liveDemo], none)) ∧
     (liveDemo.deletedAt = none →
       ∃ m, UpdateEnvironment [liveDemo] "id-2" demoPatch 7 = (dbPut [liveDemo] m, some m) ∧
        m.id = liveDemo.id ∧ m.name = liveDemo.name ∧ m.templateId = liveDemo.templateId ∧
        m.userId = liveDemo.userId ∧ m.clusterName = liveDemo.clusterName ∧
        m.createdAt = liveDemo.createdAt ∧ m.kubeConfig = liveDemo.kubeConfig ∧
        m.consoleURL = liveDemo.consoleURL ∧ m.deletedAt = none ∧
        m.description = demoPatch.description.getD liveDemo.description ∧
        m.resourceLimits = demoPatch.resourceLimits.getD liveDemo.resourceLimits ∧
        m.networkPolicy = demoPatch.networkPolicy.or liveDemo.networkPolicy ∧
        m.serviceMesh = demoPatch.serviceMesh.or liveDemo.serviceMesh ∧
        m.monitoring = demoPatch.monitoring.or liveDemo.monitoring ∧
        m.gitOps = demoPatch.gitOps.or liveDemo.gitOps ∧
        m.addons = demoPatch.addons.or liveDemo.addons ∧
        m.tags = demoPatch.tags.or liveDemo.tags ∧
        m.status = "UPDATING" ∧ m.updatedAt = 7)) :=
  ⟨by decide, c7_update_partial_merge [liveDemo] "id-2" demoPatch 7 liveDemo (by decide)⟩

/-- With a fresh ID, `CreateEnvironment` appends the CREATING record. -/
theorem createEnvironment_fresh (db : List Environment) (req : EnvironmentRequest)
    (envID : String) (now : Nat) (hfresh : ∀ e ∈ db, e.id ≠ envID) :
    (CreateEnvironment db req envID now).1 = db ++ [mkEnvironment req envID now] := by
  unfold CreateEnvironment dbPut
  have hany : db.any (fun x => x.id == (mkEnvironment req envID now).id) = false := by
    cases hc : db.any (fun x => x.id == (mkEnvironment req envID now).id) with
    | false => rfl
    | true =>
      exfalso
      obtain ⟨x, hx, hbeq⟩ := List.any_eq_true.mp hc
      exact hfresh x hx (eq_of_beq hbeq)
  rw [hany]
  simp

/-- With a fresh ID, the keyed get on the post-create store returns the
new record. -/
theorem dbGet_createEnvironment (db : List Environment) (req : EnvironmentRequest)
    (envID : String) (now : Nat) (hfresh : ∀ e ∈ db, e.id ≠ envID) :
    dbGet (CreateEnvironment db req envID now).1 envID =
      some (mkEnvironment req envID now) := by
  rw [createEnvironment_fresh db req envID now hfresh]
  unfold dbGet
  have hnone : db.find? (fun e => e.id == envID) = none := by
    rw [List.find?_eq_none]
    intro x hx
    simp [hfresh x hx]
  rw [find?_append_none _ hnone]
  have hbeq : ((mkEnvironment req envID now).id == envID) = true := by
    show (envID == envID) = true
    simp
  simp [List.find?, hbeq]

/-- C4 (amended): for a valid request and a fresh generated ID, the
created record has that ID (and it is the only record with it), status
`CREATING`, and `ClusterName = "env-" ++` the first 8 characters of the ID
(a function of the ID alone); and after the asynchronous provisioning
workflow completes successfully with kubeconfig output `k`, the persisted
record has status `ACTIVE` and `KubeConfig = k` — in particular it is
non-empty whenever the provisioning output is. -/
theorem c4_create_then_provision (db : List Environment) (req : EnvironmentRequest)
    (envID : String) (now nowW : Nat) (w : ProvisionWorld)
    (outs : List (String × TfValue)) (k : String)
    (hfresh : ∀ e ∈ db, e.id ≠ envID)
    (happly : w.applyResult = .ok ())
    (houts : w.outputsResult = .ok outs)
    (hk : lookupStr outs "kubeconfig" = some k)
    (hconf : w.configureResult = .ok ()) :
    (CreateEnvironment db req envID now).2.id = envID ∧
    (CreateEnvironment db req envID now).2.status = "CREATING" ∧
    (CreateEnvironment db req envID now).2.clusterName = "env-" ++ envID.take 8 ∧
    ((CreateEnvironment db req envID now).1.filter (fun e => e.id == envID)).length = 1 ∧
    (dbGet (provisionEnvironment (CreateEnvironment db req envID now).1
        (CreateEnvironment db req envID now).2 w nowW).1 envID).map
      Environment.status = some "ACTIVE" ∧
    (dbGet (provisionEnvironment (CreateEnvironment db req envID now).1
        (CreateEnvironment db req envID now).2 w nowW).1 envID).map
      Environment.kubeConfig = some k := by
  refine ⟨rfl, rfl, rfl, ?_, ?_, ?_⟩
  · rw [createEnvironment_fresh db req envID now hfresh]
    rw [List.filter_append]
    have hnil : db.filter (fun e => e.id == envID) = [] := by
      rw [List.filter_eq_nil_iff]
      intro x hx
      simp [hfresh x hx]
    rw [hnil]
    have hbeq : ((mkEnvironment req envID now).id == envID) = true := by
      show (envID == envID) = true
      simp
    simp [List.filter, hbeq]
  all_goals {
    unfold provisionEnvironment
    simp only [happly, houts, hk, hconf]
    rw [show (CreateEnvironment db req envID now).2.id = envID from rfl]
    rw [dbGet_setProvisioned, dbGet_updateEnvironmentStatus,
      dbGet_createEnvironment db req envID now hfresh]
    rfl
  }

/-- The creation request of the specification's scenario: "dev-env" with
`ResourceLimits{cpu:"2", memory:"4Gi", storage:"20Gi", maxNodeCount:3,
maxNamespaces:5, maxLoadBalancers:1}`. -/
def devEnvReq : EnvironmentRequest :=
  { name := "dev-env", description := "", templateId := "template-1"
    userId := "user-1", resourceLimits := ⟨"2", "4Gi", "20Gi", 3, 5, 1⟩
    networkPolicy := none, serviceMesh := none, monitoring := none
    gitOps := none, addons := none, tags := none }

/-- A generated UUID for the scenario. -/
def devEnvId : String := "11112222-3333-4444-5555-666677778888"

/-- A provisioning run in which every step succeeds but the tool's
`kubeconfig` output is the empty string. -/
def emptyKubeconfigWorld : ProvisionWorld :=
  ⟨.ok (), .ok [("kubeconfig", TfValue.str "")], .ok ()⟩

/-- The store after creating the scenario environment and running the
workflow against `emptyKubeconfigWorld`. -/
def emptyKubeconfigFinalDb : List Environment :=
  (provisionEnvironment (CreateEnvironment [] devEnvReq devEnvId 1000).1
    (CreateEnvironment [] devEnvReq devEnvId 1000).2 emptyKubeconfigWorld 1010).1

/-- C4 counterexample: the workflow completes successfully (the record
reaches `ACTIVE`) while the persisted access credential is the empty
string, because the handler adopts the `kubeconfig` output without a
non-emptiness check — refuting the claim that a successful completion
always leaves a non-empty `KubeConfig`. -/
theorem c4_empty_kubeconfig_active :
    (dbGet emptyKubeconfigFinalDb devEnvId).map Environment.status = some "ACTIVE" ∧
    (dbGet emptyKubeconfigFinalDb devEnvId).map Environment.kubeConfig = some "" := by
  constructor
  · rfl
  · rfl

/-- A successful world whose kubeconfig output is a real credential. -/
def goodWorld : ProvisionWorld :=
  ⟨.ok (), .ok [("kubeconfig", TfValue.str "apiVersion: v1"),
                ("console_url", TfValue.str "https://console")], .ok ()⟩

/-- C4 witness: concrete instance of `c4_create_then_provision`. -/
theorem c4_create_then_provision_witness :
    (∀ e ∈ ([] : List Environment), e.id ≠ devEnvId) ∧
    goodWorld.applyResult = .ok () ∧
    goodWorld.outputsResult = .ok [("kubeconfig", TfValue.str "apiVersion: v1"),
                                   ("console_url", TfValue.str "https://console")] ∧
    lookupStr [("kubeconfig", TfValue.str "apiVersion: v1"),
               ("console_url", TfValue.str "https://console")] "kubeconfig" =
      some "apiVersion: v1" ∧
    goodWorld.configureResult = .ok () ∧
    ((CreateEnvironment [] devEnvReq devEnvId 1000).2.id = devEnvId ∧
     (CreateEnvironment [] devEnvReq devEnvId 1000).2.status = "CREATING" ∧
     (CreateEnvironment [] devEnvReq devEnvId 1000).2.clusterName =
       "env-" ++ devEnvId.take 8 ∧
     ((CreateEnvironment [] devEnvReq devEnvId 1000).1.filter
        (fun e => e.id == devEnvId)).length = 1 ∧
     (dbGet (provisionEnvironment (CreateEnvironment [] devEnvReq devEnvId 1000).1
         (CreateEnvironment [] devEnvReq devEnvId 1000).2 goodWorld 1010).1 devEnvId).map
       Environment.status = some "ACTIVE" ∧
     (dbGet (provisionEnvironment (CreateEnvironment [] devEnvReq devEnvId 1000).1
         (CreateEnvironment [] devEnvReq devEnvId 1000).2 goodWorld 1010).1 devEnvId).map
       Environment.kubeConfig = some "apiVersion: v1") :=
  ⟨by simp, rfl, rfl, rfl, rfl,
    c4_create_then_provision [] devEnvReq devEnvId 1000 1010 goodWorld
      [("kubeconfig", TfValue.str "apiVersion: v1"),
       ("console_url", TfValue.str "https://console")] "apiVersion: v1"
      (by simp) rfl rfl rfl rfl⟩

/-- C5: when any step of the asynchronous create workflow fails —
Terraform apply, output retrieval, kubeconfig extraction, or cluster
bootstrap — the workflow persists status `ERROR` with a message derived
from that failure, attempts the apply exactly once and the output read at
most once (no automatic retry), and the HTTP response of the triggering
`CreateEnvironment` call is the same for every workflow outcome (the
failure is never propagated back to the caller). -/
theorem c5_workflow_failure_contract (db : List Environment) (env e0 : Environment)
    (w : ProvisionWorld) (now : Nat)
    (hrec : dbGet db env.id = some e0)
    (hfail :
      (∃ msg, w.applyResult = .error msg) ∨
      ((∃ u, w.applyResult = .ok u) ∧ ∃ msg, w.outputsResult = .error msg) ∨
      ((∃ u, w.applyResult = .ok u) ∧
        ∃ outs, w.outputsResult = .ok outs ∧ lookupStr outs "kubeconfig" = none) ∨
      ((∃ u, w.applyResult = .ok u) ∧
        ∃ outs k, w.outputsResult = .ok outs ∧ lookupStr outs "kubeconfig" = some k ∧
          ∃ msg, w.configureResult = .error msg)) :
    (dbGet (provisionEnvironment db env w now).1 env.id).map Environment.status =
      some "ERROR" ∧
    (∃ m, (dbGet (provisionEnvironment db env w now).1 env.id).map
        Environment.statusMessage = some m ∧
      ((∃ d, m = "Failed to provision resources: " ++ d) ∨
       (∃ d, m = "Failed to get provisioning outputs: " ++ d) ∨
       m = "Failed to get kubeconfig" ∨
       (∃ d, m = "Failed to configure Kubernetes resources: " ++ d))) ∧
    (provisionEnvironment db env w now).2.applyCalls = 1 ∧
    (provisionEnvironment db env w now).2.getOutputsCalls ≤ 1 ∧
    (∀ w' nowW nowC req envID dbC,
      (createEnvironmentFlow dbC req envID nowC w' nowW).2 =
        (createEnvironmentFlow dbC req envID nowC w nowW).2) := by
  rcases hfail with ⟨msg, hw⟩ | ⟨⟨u, hw⟩, msg, hout⟩ |
    ⟨⟨u, hw⟩, outs, hout, hkc⟩ | ⟨⟨u, hw⟩, outs, k, hout, hkc, msg, hcf⟩
  · unfold provisionEnvironment
    simp only [hw]
    rw [dbGet_updateEnvironmentStatus, dbGet_updateEnvironmentStatus, hrec]
    refine ⟨?_, ⟨"Failed to provision resources: " ++ msg, ?_, ?_⟩, ?_, ?_, ?_⟩
    · rfl
    · rfl
    · exact Or.inl ⟨msg, rfl⟩
    · trivial
    · trivial
    · intros; rfl
  · cases u
    unfold provisionEnvironment
    simp only [hw, hout]
    rw [dbGet_updateEnvironmentStatus, dbGet_updateEnvironmentStatus, hrec]
    refine ⟨?_, ⟨"Failed to get provisioning outputs: " ++ msg, ?_, ?_⟩, ?_, ?_, ?_⟩
    · rfl
    · rfl
    · exact Or.inr (Or.inl ⟨msg, rfl⟩)
    · trivial
    · trivial
    · intros; rfl
  · cases u
    unfold provisionEnvironment
    simp only [hw, hout, hkc]
    rw [dbGet_updateEnvironmentStatus, dbGet_updateEnvironmentStatus, hrec]
    refine ⟨?_, ⟨"Failed to get kubeconfig", ?_, ?_⟩, ?_, ?_, ?_⟩
    · rfl
    · rfl
    · exact Or.inr (Or.inr (Or.inl rfl))
    · trivial
    · trivial
    · intros; rfl
  · cases u
    unfold provisionEnvironment
    simp only [hw, hout, hkc, hcf]
    rw [dbGet_updateEnvironmentStatus, dbGet_updateEnvironmentStatus, hrec]
    refine ⟨?_, ⟨"Failed to configure Kubernetes resources: " ++ msg, ?_, ?_⟩, ?_, ?_, ?_⟩
    · rfl
    · rfl
    · exact Or.inr (Or.inr (Or.inr ⟨msg, rfl⟩))
    · trivial
    · trivial
    · intros; rfl

/-- A world whose Terraform apply fails. -/
def applyFailsWorld : ProvisionWorld :=
  ⟨.error "exit status 1, stderr: quota exceeded", .error "not reached", .ok ()⟩

/-- C5 witness: concrete instance of `c5_workflow_failure_contract`. -/
theorem c5_workflow_failure_contract_witness :
    dbGet [liveDemo] liveDemo.id = some liveDemo ∧
    ((dbGet (provisionEnvironment [liveDemo] liveDemo applyFailsWorld 9).1
        liveDemo.id).map Environment.status = some "ERROR" ∧
     (∃ m, (dbGet (provisionEnvironment [liveDemo] liveDemo applyFailsWorld 9).1
          liveDemo.id).map Environment.statusMessage = some m ∧
       ((∃ d, m = "Failed to provision resources: " ++ d) ∨
        (∃ d, m = "Failed to get provisioning outputs: " ++ d) ∨
        m = "Failed to get kubeconfig" ∨
        (∃ d, m = "Failed to configure Kubernetes resources: " ++ d))) ∧
     (provisionEnvironment [liveDemo] liveDemo applyFailsWorld 9).2.applyCalls = 1 ∧
     (provisionEnvironment [liveDemo] liveDemo applyFailsWorld 9).2.getOutputsCalls ≤ 1 ∧
     (∀ w' nowW nowC req envID dbC,
       (createEnvironmentFlow dbC req envID nowC w' nowW).2 =
         (createEnvironmentFlow dbC req envID nowC applyFailsWorld nowW).2)) :=
  ⟨by decide,
   c5_workflow_failure_contract [liveDemo] liveDemo liveDemo applyFailsWorld 9
     (by decide)
     (Or.inl ⟨"exit status 1, stderr: quota exceeded", rfl⟩)⟩

end Api

namespace Controller

/-! ## Tenant reconciler (`multi-tenancy/controller/main.go`)

The cluster API is the external collaborator: keyed get/create/update of
namespaces, resource quotas, network policies and role bindings, with
NotFound discrimination.  The model carries the managed object sets as
keyed lists inside `ClusterState`.  The only fallible calls on the
reconcile path of the source are the two namespace `Get`s (in
`ensureNamespace` and `ensureServiceMesh`); the fault channel `brokenNs`
injects a non-NotFound failure for these calls on the listed namespaces,
which is how the failure-policy claims are exercised.  Quantity strings
pass through `resource.MustParse` unchanged for the well-formed inputs the
tenants declare, so they are carried verbatim. -/

/-- `Tenant.ResourceLimits` of the controller. -/
structure ResourceLimits where
  cpu : String
  memory : String
  storage : String
  pods : Int
  services : Int
  endpoints : Int
deriving DecidableEq

/-- `Tenant.NetworkPolicy` of the controller. -/
structure NetworkPolicy where
  allowIngressFromCIDR : List String
  allowEgressToCIDR : List String
  defaultDenyIngress : Bool
  defaultDenyEgress : Bool
  allowIntraNamespace : Bool
  allowCrossNamespace : Bool
  allowExternalServices : List String
deriving DecidableEq

/-- `Tenant`. -/
structure Tenant where
  id : String
  name : String
  ownerId : String
  namespaces : List String
  resourceLimits : ResourceLimits
  networkPolicy : NetworkPolicy
  serviceMeshEnable : Bool
deriving DecidableEq

/-- A live `corev1.Namespace` object (name and labels). -/
structure NamespaceObj where
  name : String
  labels : List (String × String)
deriving DecidableEq

/-- A live `corev1.ResourceQuota` object. -/
structure QuotaObj where
  name : String
  nsName : String
  labels : List (String × String)
  hard : List (String × String)
deriving DecidableEq

/-- The policy shapes the reconciler creates. -/
inductive NetPolSpec where
  | denyIngress
  | denyEgress
  | allowIntra
  | ingressCidr (cidr : String)
deriving DecidableEq

/-- A live `networkingv1.NetworkPolicy` object. -/
structure NetPolObj where
  name : String
  nsName : String
  labels : List (String × String)
  spec : NetPolSpec
deriving DecidableEq

/-- A live `rbacv1.RoleBinding` object. -/
structure RoleBindingObj where
  name : String
  nsName : String
  labels : List (String × String)
  subjectName : String
  roleRefName : String
deriving DecidableEq

/-- The live cluster objects plus the `brokenNs` fault channel: namespace
`Get` calls fail with a non-NotFound error for the listed namespaces. -/
structure ClusterState where
  namespaces : List NamespaceObj
  quotas : List QuotaObj
  netpols : List NetPolObj
  roleBindings : List RoleBindingObj
  brokenNs : List String
deriving DecidableEq

/-- Kind of a mutating cluster-API call. -/
inductive CallKind where
  | create
  | update
deriving DecidableEq

/-- One mutating cluster-API call issued during a reconcile pass. -/
structure Call where
  kind : CallKind
  resource : String
  nsName : String
  name : String
deriving DecidableEq

def nsKey (name : String) (o : NamespaceObj) : Bool := o.name == name

def quotaKey (nsName nm : String) (q : QuotaObj) : Bool :=
  q.nsName == nsName && q.name == nm

def netPolKey (nsName nm : String) (p : NetPolObj) : Bool :=
  p.nsName == nsName && p.name == nm

def rbKey (nsName nm : String) (r : RoleBindingObj) : Bool :=
  r.nsName == nsName && r.name == nm

def findNsL (l : List NamespaceObj) (name : String) : Option NamespaceObj :=
  l.find? (nsKey name)

def findNs (c : ClusterState) (name : String) : Option NamespaceObj :=
  findNsL c.namespaces name

def findQuotaL (l : List QuotaObj) (nsName nm : String) : Option QuotaObj :=
  l.find? (quotaKey nsName nm)

def findQuota (c : ClusterState) (nsName nm : String) : Option QuotaObj :=
  findQuotaL c.quotas nsName nm

def findNetPolL (l : List NetPolObj) (nsName nm : String) : Option NetPolObj :=
  l.find? (netPolKey nsName nm)

def findNetPol (c : ClusterState) (nsName nm : String) : Option NetPolObj :=
  findNetPolL c.netpols nsName nm

def findRBL (l : List RoleBindingObj) (nsName nm : String) : Option RoleBindingObj :=
  l.find? (rbKey nsName nm)

def findRB (c : ClusterState) (nsName nm : String) : Option RoleBindingObj :=
  findRBL c.roleBindings nsName nm

/-- The labels `ensureNamespace` stamps on a namespace it creates. -/
def nsLabels (t : Tenant) (clusterName : String) : List (String × String) :=
  [("tenant", t.name), ("tenant-id", t.id), ("owner-id", t.ownerId),
   ("managed-by", "tenant-controller"), ("cluster-name", clusterName)]

/-- `ensureNamespace`: get-or-create, labelling with tenant identity. -/
def ensureNamespace (c : ClusterState) (clusterName : String) (name : String)
    (t : Tenant) : Except String (ClusterState × List Call) :=
  if c.brokenNs.contains name then
    .error ("failed to check namespace " ++ name)
  else
    match findNs c name with
    | some _ => .ok (c, [])
    | none =>
      .ok ({ c with namespaces := c.namespaces ++ [⟨name, nsLabels t clusterName⟩] },
        [⟨.create, "namespace", "", name⟩])

/-- The `Hard` resource list of the quota `ensureResourceQuota` builds:
the declared CPU/memory/storage/pods/services values verbatim, with CPU
and memory mirrored into the requests/limits entries.  Note that the
declared `endpoints` limit does not appear. -/
def tenantQuotaHard (limits : ResourceLimits) : List (String × String) :=
  [("cpu", limits.cpu), ("memory", limits.memory),
   ("ephemeral-storage", limits.storage),
   ("pods", toString limits.pods), ("services", toString limits.services),
   ("requests.cpu", limits.cpu), ("requests.memory", limits.memory),
   ("limits.cpu", limits.cpu), ("limits.memory", limits.memory)]

/-- The quota object `ensureResourceQuota` builds. -/
def mkTenantQuota (nsName : String) (limits : ResourceLimits) : QuotaObj :=
  ⟨"tenant-quota", nsName, [("managed-by", "tenant-controller")],
   tenantQuotaHard limits⟩

/-- `ensureResourceQuota`: get, then create when absent and update (to the
freshly built quota) when present. -/
def ensureResourceQuota (c : ClusterState) (nsName : String)
    (limits : ResourceLimits) : ClusterState × List Call :=
  let quota := mkTenantQuota nsName limits
  match findQuota c nsName "tenant-quota" with
  | none =>
    ({ c with quotas := c.quotas ++ [quota] },
     [⟨.create, "resourcequota", nsName, "tenant-quota"⟩])
  | some _ =>
    ({ c with quotas := replaceBy (quotaKey nsName "tenant-quota") quota c.quotas },
     [⟨.update, "resourcequota", nsName, "tenant-quota"⟩])

/-- The shared get-or-create step of each policy block of
`ensureNetworkPolicies` (policies are created when absent and never
updated). -/
def ensurePolicy (c : ClusterState) (nsName nm : String)
    (labels : List (String × String)) (spec : NetPolSpec) : ClusterState × List Call :=
  match findNetPol c nsName nm with
  | some _ => (c, [])
  | none =>
    ({ c with netpols := c.netpols ++ [⟨nm, nsName, labels, spec⟩] },
     [⟨.create, "networkpolicy", nsName, nm⟩])

/-- `fmt.Sprintf("allow-ingress-cidr-%d", i)`. -/
def cidrPolicyName (i : Nat) : String := "allow-ingress-cidr-" ++ toString i

/-- The per-index CIDR loop of `ensureNetworkPolicies`: one policy object
per declared CIDR, named by index, get-or-create only. -/
def ensureCidrPolicies (nsName : String) :
    ClusterState → List String → Nat → ClusterState × List Call
  | c, [], _ => (c, [])
  | c, cidr :: rest, i =>
    let r1 := ensurePolicy c nsName (cidrPolicyName i)
      [("managed-by", "tenant-controller"), ("cidr", cidr)] (.ingressCidr cidr)
    let r2 := ensureCidrPolicies nsName r1.1 rest (i + 1)
    (r2.1, r1.2 ++ r2.2)

/-- `ensureNetworkPolicies`: default-deny-ingress / default-deny-egress /
allow-intra-namespace when the corresponding flag is set, then the CIDR
loop (the source guards the loop with `len > 0`, which is redundant). -/
def ensureNetworkPolicies (c : ClusterState) (nsName : String)
    (policy : NetworkPolicy) : ClusterState × List Call :=
  let r1 := if policy.defaultDenyIngress then
      ensurePolicy c nsName "default-deny-ingress"
        [("managed-by", "tenant-controller")] .denyIngress
    else (c, [])
  let r2 := if policy.defaultDenyEgress then
      ensurePolicy r1.1 nsName "default-deny-egress"
        [("managed-by", "tenant-controller")] .denyEgress
    else (r1.1, [])
  let r3 := if policy.allowIntraNamespace then
      ensurePolicy r2.1 nsName "allow-intra-namespace"
        [("managed-by", "tenant-controller")] .allowIntra
    else (r2.1, [])
  let r4 := ensureCidrPolicies nsName r3.1 policy.allowIngressFromCIDR 0
  (r4.1, r1.2 ++ r2.2 ++ r3.2 ++ r4.2)

/-- The role binding `ensureRBAC` builds for the tenant owner. -/
def ownerRoleBinding (nsName ownerId : String) : RoleBindingObj :=
  ⟨"tenant-owner", nsName, [("managed-by", "tenant-controller")], ownerId, "admin"⟩

/-- `ensureRBAC`: get-or-create the `tenant-owner` binding (create-only,
never rotated). -/
def ensureRBAC (c : ClusterState) (nsName ownerId : String) : ClusterState × List Call :=
  match findRB c nsName "tenant-owner" with
  | some _ => (c, [])
  | none =>
    ({ c with roleBindings := c.roleBindings ++ [ownerRoleBinding nsName ownerId] },
     [⟨.create, "rolebinding", nsName, "tenant-owner"⟩])

/-- The namespace object with the sidecar-injection label set. -/
def meshLabeled (o : NamespaceObj) : NamespaceObj :=
  { o with labels := setKV o.labels "istio-injection" "enabled" }

/-- `ensureServiceMesh`: get the namespace (any `Get` error, NotFound
included, aborts), set the `istio-injection=enabled` label and update. -/
def ensureServiceMesh (c : ClusterState) (nsName : String) :
    Except String (ClusterState × List Call) :=
  if c.brokenNs.contains nsName then
    .error ("failed to get namespace " ++ nsName)
  else
    match findNs c nsName with
    | none => .error ("failed to get namespace " ++ nsName)
    | some o =>
      .ok ({ c with namespaces := replaceBy (nsKey nsName) (meshLabeled o) c.namespaces },
        [⟨.update, "namespace", "", nsName⟩])

/-- The quota/network-policy/RBAC/mesh sequence of `processTenant`'s loop
body, after the namespace itself has been ensured. -/
def processNamespaceSteps (c1 : ClusterState) (t : Tenant) (nsName : String) :
    ClusterState × List Call × Option String :=
  let r2 := ensureResourceQuota c1 nsName t.resourceLimits
  let r3 := ensureNetworkPolicies r2.1 nsName t.networkPolicy
  let r4 := ensureRBAC r3.1 nsName t.ownerId
  if t.serviceMeshEnable then
    match ensureServiceMesh r4.1 nsName with
    | .error e =>
      (r4.1, r2.2 ++ r3.2 ++ r4.2,
       some ("failed to ensure service mesh for namespace " ++ nsName ++ ": " ++ e))
    | .ok (c5, k5) => (c5, r2.2 ++ r3.2 ++ r4.2 ++ k5, none)
  else (r4.1, r2.2 ++ r3.2 ++ r4.2, none)

/-- The per-namespace body of `processTenant`'s loop: the five ensure
steps in source order; the error wrapping of the loop is applied here. -/
def processOneNamespace (c : ClusterState) (clusterName : String) (t : Tenant)
    (nsName : String) : ClusterState × List Call × Option String :=
  match ensureNamespace c clusterName nsName t with
  | .error e => (c, [], some ("failed to ensure namespace " ++ nsName ++ ": " ++ e))
  | .ok (c1, k1) =>
    let r := processNamespaceSteps c1 t nsName
    (r.1, k1 ++ r.2.1, r.2.2)

/-- `processTenant`'s loop over the tenant's namespace list: the source
returns on the first failing namespace, so the remaining namespaces of the
tenant are not processed in that tick. -/
def processNamespaceList (clusterName : String) (t : Tenant) :
    ClusterState → List String → ClusterState × List Call × Option String
  | c, [] => (c, [], none)
  | c, nsName :: rest =>
    match processOneNamespace c clusterName t nsName with
    | (c1, k1, some e) => (c1, k1, some e)
    | (c1, k1, none) =>
      let r := processNamespaceList clusterName t c1 rest
      (r.1, k1 ++ r.2.1, r.2.2)

/-- `processTenant`. -/
def processTenant (c : ClusterState) (clusterName : String) (t : Tenant) :
    ClusterState × List Call × Option String :=
  processNamespaceList clusterName t c t.namespaces

/-- The tenant loop of `reconcile`: a failing tenant is logged and the
loop continues with the next tenant. -/
def reconcileTenants (clusterName : String) :
    ClusterState → List Tenant → ClusterState × List Call
  | c, [] => (c, [])
  | c, t :: rest =>
    let r1 := processTenant c clusterName t
    let r2 := reconcileTenants clusterName r1.1 rest
    (r2.1, r1.2.1 ++ r2.2)

/-- The mock working set `getTenants` returns in the source. -/
def tenantAlpha : Tenant :=
  { id := "tenant-1", name := "team-alpha", ownerId := "user-1"
    namespaces := ["team-alpha-dev", "team-alpha-staging", "team-alpha-prod"]
    resourceLimits :=
      { cpu := "8", memory := "16Gi", storage := "100Gi"
        pods := 20, services := 10, endpoints := 100 }
    networkPolicy :=
      { allowIngressFromCIDR := ["10.0.0.0/8"]
        allowEgressToCIDR := ["0.0.0.0/0"]
        defaultDenyIngress := true, defaultDenyEgress := false
        allowIntraNamespace := true, allowCrossNamespace := false
        allowExternalServices := [] }
    serviceMeshEnable := true }

/-- `getTenants` (mock data in the source). -/
def getTenants : List Tenant := [tenantAlpha]

/-- One `reconcile` tick. -/
def reconcile (c : ClusterState) (clusterName : String) : ClusterState × List Call :=
  reconcileTenants clusterName c getTenants

end Controller

namespace Controller

/-! ### Key predicates and per-operation lemmas -/

theorem quotaKey_mk (nsName : String) (limits : ResourceLimits) :
    quotaKey nsName "tenant-quota" (mkTenantQuota nsName limits) = true := by
  simp [quotaKey, mkTenantQuota]

theorem quotaKey_eq {nsName nm : String} {x : QuotaObj}
    (h : quotaKey nsName nm x = true) : x.nsName = nsName ∧ x.name = nm := by
  unfold quotaKey at h
  rw [Bool.and_eq_true] at h
  exact ⟨eq_of_beq h.1, eq_of_beq h.2⟩

theorem quotaKey_false {ns2 nm2 nsName nm : String} (x : QuotaObj)
    (hx : x.nsName = nsName) (hxn : x.name = nm)
    (hne : ¬(ns2 = nsName ∧ nm2 = nm)) : quotaKey ns2 nm2 x = false := by
  unfold quotaKey
  rw [hx, hxn]
  by_cases h1 : nsName = ns2
  · by_cases h2 : nm = nm2
    · exact absurd ⟨h1.symm, h2.symm⟩ hne
    · simp [h2]
  · simp [h1]

theorem nsKey_eq {name : String} {x : NamespaceObj}
    (h : nsKey name x = true) : x.name = name := eq_of_beq h

theorem nsKey_false {ns2 name : String} (x : NamespaceObj)
    (hx : x.name = name) (hne : ns2 ≠ name) : nsKey ns2 x = false := by
  unfold nsKey
  rw [hx]
  have hne2 : ¬name = ns2 := fun h => hne h.symm
  simp [hne2]

theorem netPolKey_eq {nsName nm : String} {x : NetPolObj}
    (h : netPolKey nsName nm x = true) : x.nsName = nsName ∧ x.name = nm := by
  unfold netPolKey at h
  rw [Bool.and_eq_true] at h
  exact ⟨eq_of_beq h.1, eq_of_beq h.2⟩

theorem rbKey_eq {nsName nm : String} {x : RoleBindingObj}
    (h : rbKey nsName nm x = true) : x.nsName = nsName ∧ x.name = nm := by
  unfold rbKey at h
  rw [Bool.and_eq_true] at h
  exact ⟨eq_of_beq h.1, eq_of_beq h.2⟩

/-! #### `ensureResourceQuota` -/

theorem ensureResourceQuota_fields (c : ClusterState) (nsName : String)
    (limits : ResourceLimits) :
    (ensureResourceQuota c nsName limits).1.namespaces = c.namespaces ∧
    (ensureResourceQuota c nsName limits).1.netpols = c.netpols ∧
    (ensureResourceQuota c nsName limits).1.roleBindings = c.roleBindings ∧
    (ensureResourceQuota c nsName limits).1.brokenNs = c.brokenNs := by
  unfold ensureResourceQuota
  cases findQuota c nsName "tenant-quota" <;> exact ⟨rfl, rfl, rfl, rfl⟩

theorem ensureResourceQuota_quota (c : ClusterState) (nsName : String)
    (limits : ResourceLimits) :
    findQuota (ensureResourceQuota c nsName limits).1 nsName "tenant-quota" =
      some (mkTenantQuota nsName limits) := by
  unfold ensureResourceQuota
  cases h : findQuota c nsName "tenant-quota" with
  | none =>
    unfold findQuota findQuotaL at h ⊢
    dsimp only
    rw [find?_append_none _ h]
    simp [List.find?, quotaKey_mk nsName limits]
  | some q =>
    unfold findQuota findQuotaL at h ⊢
    dsimp only
    exact find?_replaceBy _ h (quotaKey_mk nsName limits)

theorem ensureResourceQuota_other (c : ClusterState) (nsName : String)
    (limits : ResourceLimits) (ns2 nm2 : String)
    (hne : ¬(ns2 = nsName ∧ nm2 = "tenant-quota")) :
    findQuota (ensureResourceQuota c nsName limits).1 ns2 nm2 =
      findQuota c ns2 nm2 := by
  unfold ensureResourceQuota
  cases h : findQuota c nsName "tenant-quota" with
  | none =>
    unfold findQuota findQuotaL
    dsimp only
    exact find?_append_single _ _ _ (quotaKey_false _ rfl rfl hne)
  | some q =>
    unfold findQuota findQuotaL
    dsimp only
    refine find?_replaceBy_frame _ ?_ (quotaKey_false _ rfl rfl hne)
    intro x hx
    obtain ⟨h1, h2⟩ := quotaKey_eq hx
    exact quotaKey_false x h1 h2 hne

theorem ensureResourceQuota_idem (c : ClusterState) (nsName : String)
    (limits : ResourceLimits)
    (h : findQuota c nsName "tenant-quota" = some (mkTenantQuota nsName limits)) :
    ensureResourceQuota c nsName limits =
      (c, [⟨.update, "resourcequota", nsName, "tenant-quota"⟩]) := by
  unfold ensureResourceQuota
  rw [h]
  dsimp only
  have hrep : replaceBy (quotaKey nsName "tenant-quota") (mkTenantQuota nsName limits)
      c.quotas = c.quotas := replaceBy_self h
  rw [hrep]

/-! #### `ensurePolicy` and the CIDR loop -/

theorem ensurePolicy_fields (c : ClusterState) (nsName nm : String)
    (labels : List (String × String)) (spec : NetPolSpec) :
    (ensurePolicy c nsName nm labels spec).1.namespaces = c.namespaces ∧
    (ensurePolicy c nsName nm labels spec).1.quotas = c.quotas ∧
    (ensurePolicy c nsName nm labels spec).1.roleBindings = c.roleBindings ∧
    (ensurePolicy c nsName nm labels spec).1.brokenNs = c.brokenNs := by
  unfold ensurePolicy
  cases findNetPol c nsName nm <;> exact ⟨rfl, rfl, rfl, rfl⟩

theorem ensurePolicy_isSome (c : ClusterState) (nsName nm : String)
    (labels : List (String × String)) (spec : NetPolSpec) :
    (findNetPol (ensurePolicy c nsName nm labels spec).1 nsName nm).isSome = true := by
  unfold ensurePolicy
  cases h : findNetPol c nsName nm with
  | some p =>
    unfold findNetPol findNetPolL at h ⊢
    rw [h]
    rfl
  | none =>
    unfold findNetPol findNetPolL at h ⊢
    dsimp only
    rw [find?_append_none _ h]
    have hk : netPolKey nsName nm (⟨nm, nsName, labels, spec⟩ : NetPolObj) = true := by
      simp [netPolKey]
    simp [List.find?, hk]

theorem ensurePolicy_mono (c : ClusterState) (nsName nm : String)
    (labels : List (String × String)) (spec : NetPolSpec) (ns2 nm2 : String)
    (h : (findNetPol c ns2 nm2).isSome = true) :
    (findNetPol (ensurePolicy c nsName nm labels spec).1 ns2 nm2).isSome = true := by
  unfold ensurePolicy
  cases hf : findNetPol c nsName nm with
  | some p => exact h
  | none =>
    unfold findNetPol findNetPolL at h ⊢
    dsimp only
    obtain ⟨p, hp⟩ := Option.isSome_iff_exists.mp h
    rw [find?_append_some _ hp]
    rfl

theorem ensurePolicy_idem (c : ClusterState) (nsName nm : String)
    (labels : List (String × String)) (spec : NetPolSpec)
    (h : (findNetPol c nsName nm).isSome = true) :
    ensurePolicy c nsName nm labels spec = (c, []) := by
  unfold ensurePolicy
  obtain ⟨p, hp⟩ := Option.isSome_iff_exists.mp h
  rw [hp]

/-- The per-index convergence of the declared CIDR list. -/
def CidrConverged (c : ClusterState) (nsName : String) :
    List String → Nat → Prop
  | [], _ => True
  | _ :: rest, i =>
    (findNetPol c nsName (cidrPolicyName i)).isSome = true ∧
    CidrConverged c nsName rest (i + 1)

theorem CidrConverged_mono {c c2 : ClusterState} {nsName : String}
    (hmono : ∀ nm, (findNetPol c nsName nm).isSome = true →
      (findNetPol c2 nsName nm).isSome = true) :
    ∀ (cidrs : List String) (i : Nat),
      CidrConverged c nsName cidrs i → CidrConverged c2 nsName cidrs i := by
  intro cidrs
  induction cidrs with
  | nil => intro i h; trivial
  | cons cidr rest ih =>
    intro i h
    exact ⟨hmono _ h.1, ih (i + 1) h.2⟩

theorem ensureCidrPolicies_fields (nsName : String) (cidrs : List String) :
    ∀ (c : ClusterState) (i : Nat),
    (ensureCidrPolicies nsName c cidrs i).1.namespaces = c.namespaces ∧
    (ensureCidrPolicies nsName c cidrs i).1.quotas = c.quotas ∧
    (ensureCidrPolicies nsName c cidrs i).1.roleBindings = c.roleBindings ∧
    (ensureCidrPolicies nsName c cidrs i).1.brokenNs = c.brokenNs := by
  induction cidrs with
  | nil => intro c i; exact ⟨rfl, rfl, rfl, rfl⟩
  | cons cidr rest ih =>
    intro c i
    simp only [ensureCidrPolicies]
    obtain ⟨e1, e2, e3, e4⟩ := ih (ensurePolicy c nsName (cidrPolicyName i)
      [("managed-by", "tenant-controller"), ("cidr", cidr)] (.ingressCidr cidr)).1 (i + 1)
    obtain ⟨f1, f2, f3, f4⟩ := ensurePolicy_fields c nsName (cidrPolicyName i)
      [("managed-by", "tenant-controller"), ("cidr", cidr)] (.ingressCidr cidr)
    exact ⟨e1.trans f1, e2.trans f2, e3.trans f3, e4.trans f4⟩

theorem ensureCidrPolicies_mono (nsName : String) (cidrs : List String) :
    ∀ (c : ClusterState) (i : Nat) (ns2 nm2 : String),
    (findNetPol c ns2 nm2).isSome = true →
    (findNetPol (ensureCidrPolicies nsName c cidrs i).1 ns2 nm2).isSome = true := by
  induction cidrs with
  | nil => intro c i ns2 nm2 h; exact h
  | cons cidr rest ih =>
    intro c i ns2 nm2 h
    simp only [ensureCidrPolicies]
    exact ih _ (i + 1) ns2 nm2 (ensurePolicy_mono c nsName (cidrPolicyName i) _ _ ns2 nm2 h)

theorem ensureCidrPolicies_establishes (nsName : String) (cidrs : List String) :
    ∀ (c : ClusterState) (i : Nat),
    CidrConverged (ensureCidrPolicies nsName c cidrs i).1 nsName cidrs i := by
  induction cidrs with
  | nil => intro c i; trivial
  | cons cidr rest ih =>
    intro c i
    simp only [ensureCidrPolicies]
    constructor
    · exact ensureCidrPolicies_mono nsName rest _ (i + 1) nsName (cidrPolicyName i)
        (ensurePolicy_isSome c nsName (cidrPolicyName i) _ _)
    · exact ih _ (i + 1)

theorem ensureCidrPolicies_idem (nsName : String) (cidrs : List String) :
    ∀ (c : ClusterState) (i : Nat),
    CidrConverged c nsName cidrs i →
    ensureCidrPolicies nsName c cidrs i = (c, []) := by
  induction cidrs with
  | nil => intro c i _; rfl
  | cons cidr rest ih =>
    intro c i h
    simp only [ensureCidrPolicies]
    rw [ensurePolicy_idem c nsName (cidrPolicyName i) _ _ h.1]
    rw [ih c (i + 1) h.2]
    rfl

/-! #### `ensureNetworkPolicies` -/

theorem ensureNetworkPolicies_fields (c : ClusterState) (nsName : String)
    (policy : NetworkPolicy) :
    (ensureNetworkPolicies c nsName policy).1.namespaces = c.namespaces ∧
    (ensureNetworkPolicies c nsName policy).1.quotas = c.quotas ∧
    (ensureNetworkPolicies c nsName policy).1.roleBindings = c.roleBindings ∧
    (ensureNetworkPolicies c nsName policy).1.brokenNs = c.brokenNs := by
  unfold ensureNetworkPolicies
  dsimp only
  have step : ∀ (c0 : ClusterState) (nm : String) (labels : List (String × String))
      (spec : NetPolSpec) (b : Bool),
      ((if b then ensurePolicy c0 nsName nm labels spec else (c0, [])).1.namespaces =
        c0.namespaces) ∧
      ((if b then ensurePolicy c0 nsName nm labels spec else (c0, [])).1.quotas =
        c0.quotas) ∧
      ((if b then ensurePolicy c0 nsName nm labels spec else (c0, [])).1.roleBindings =
        c0.roleBindings) ∧
      ((if b then ensurePolicy c0 nsName nm labels spec else (c0, [])).1.brokenNs =
        c0.brokenNs) := by
    intro c0 nm labels spec b
    cases b
    · exact ⟨rfl, rfl, rfl, rfl⟩
    · exact ensurePolicy_fields c0 nsName nm labels spec
  obtain ⟨a1, a2, a3, a4⟩ := step c "default-deny-ingress" _ _ policy.defaultDenyIngress
  obtain ⟨b1, b2, b3, b4⟩ := step _ "default-deny-egress" _ _ policy.defaultDenyEgress
  obtain ⟨d1, d2, d3, d4⟩ := step _ "allow-intra-namespace" _ _ policy.allowIntraNamespace
  obtain ⟨e1, e2, e3, e4⟩ := ensureCidrPolicies_fields nsName policy.allowIngressFromCIDR _ 0
  exact ⟨((e1.trans d1).trans b1).trans a1, ((e2.trans d2).trans b2).trans a2,
    ((e3.trans d3).trans b3).trans a3, ((e4.trans d4).trans b4).trans a4⟩

end Controller

namespace Controller

/-! #### The conditional policy blocks of `ensureNetworkPolicies` -/

theorem ifPolicy_mono (c0 : ClusterState) (nsName nm : String)
    (labels : List (String × String)) (spec : NetPolSpec) (b : Bool)
    (ns2 nm2 : String) (h : (findNetPol c0 ns2 nm2).isSome = true) :
    (findNetPol (if b then ensurePolicy c0 nsName nm labels spec
      else (c0, [])).1 ns2 nm2).isSome = true := by
  cases b
  · simpa using h
  · simpa using ensurePolicy_mono c0 nsName nm labels spec ns2 nm2 h

theorem ifPolicy_idem (c0 : ClusterState) (nsName nm : String)
    (labels : List (String × String)) (spec : NetPolSpec) (b : Bool)
    (h : b = true → (findNetPol c0 nsName nm).isSome = true) :
    (if b then ensurePolicy c0 nsName nm labels spec else (c0, [])) = (c0, []) := by
  cases b
  · simp
  · simpa using ensurePolicy_idem c0 nsName nm labels spec (h rfl)

theorem ensureNetworkPolicies_mono (c : ClusterState) (nsName : String)
    (policy : NetworkPolicy) (ns2 nm2 : String)
    (h : (findNetPol c ns2 nm2).isSome = true) :
    (findNetPol (ensureNetworkPolicies c nsName policy).1 ns2 nm2).isSome = true := by
  unfold ensureNetworkPolicies
  dsimp only
  apply ensureCidrPolicies_mono
  apply ifPolicy_mono
  apply ifPolicy_mono
  apply ifPolicy_mono
  exact h

theorem ensureNetworkPolicies_establishes (c : ClusterState) (nsName : String)
    (policy : NetworkPolicy) :
    (policy.defaultDenyIngress = true →
      (findNetPol (ensureNetworkPolicies c nsName policy).1 nsName
        "default-deny-ingress").isSome = true) ∧
    (policy.defaultDenyEgress = true →
      (findNetPol (ensureNetworkPolicies c nsName policy).1 nsName
        "default-deny-egress").isSome = true) ∧
    (policy.allowIntraNamespace = true →
      (findNetPol (ensureNetworkPolicies c nsName policy).1 nsName
        "allow-intra-namespace").isSome = true) ∧
    CidrConverged (ensureNetworkPolicies c nsName policy).1 nsName
      policy.allowIngressFromCIDR 0 := by
  unfold ensureNetworkPolicies
  dsimp only
  refine ⟨?_, ?_, ?_, ?_⟩
  · intro hdi
    simp only [hdi, if_true]
    apply ensureCidrPolicies_mono
    apply ifPolicy_mono
    apply ifPolicy_mono
    exact ensurePolicy_isSome c nsName "default-deny-ingress" _ _
  · intro hde
    simp only [hde, if_true]
    apply ensureCidrPolicies_mono
    apply ifPolicy_mono
    exact ensurePolicy_isSome _ nsName "default-deny-egress" _ _
  · intro hai
    simp only [hai, if_true]
    apply ensureCidrPolicies_mono
    exact ensurePolicy_isSome _ nsName "allow-intra-namespace" _ _
  · exact ensureCidrPolicies_establishes nsName policy.allowIngressFromCIDR _ 0

theorem ensureNetworkPolicies_idem (c : ClusterState) (nsName : String)
    (policy : NetworkPolicy)
    (h1 : policy.defaultDenyIngress = true →
      (findNetPol c nsName "default-deny-ingress").isSome = true)
    (h2 : policy.defaultDenyEgress = true →
      (findNetPol c nsName "default-deny-egress").isSome = true)
    (h3 : policy.allowIntraNamespace = true →
      (findNetPol c nsName "allow-intra-namespace").isSome = true)
    (h4 : CidrConverged c nsName policy.allowIngressFromCIDR 0) :
    ensureNetworkPolicies c nsName policy = (c, []) := by
  unfold ensureNetworkPolicies
  dsimp only
  rw [ifPolicy_idem c nsName "default-deny-ingress" _ _ _ h1]
  dsimp only
  rw [ifPolicy_idem c nsName "default-deny-egress" _ _ _ h2]
  dsimp only
  rw [ifPolicy_idem c nsName "allow-intra-namespace" _ _ _ h3]
  dsimp only
  rw [ensureCidrPolicies_idem nsName policy.allowIngressFromCIDR c 0 h4]
  rfl

/-! #### `ensureRBAC` -/

theorem ensureRBAC_fields (c : ClusterState) (nsName ownerId : String) :
    (ensureRBAC c nsName ownerId).1.namespaces = c.namespaces ∧
    (ensureRBAC c nsName ownerId).1.quotas = c.quotas ∧
    (ensureRBAC c nsName ownerId).1.netpols = c.netpols ∧
    (ensureRBAC c nsName ownerId).1.brokenNs = c.brokenNs := by
  unfold ensureRBAC
  cases findRB c nsName "tenant-owner" <;> exact ⟨rfl, rfl, rfl, rfl⟩

theorem ensureRBAC_isSome (c : ClusterState) (nsName ownerId : String) :
    (findRB (ensureRBAC c nsName ownerId).1 nsName "tenant-owner").isSome = true := by
  unfold ensureRBAC
  cases h : findRB c nsName "tenant-owner" with
  | some r =>
    unfold findRB findRBL at h ⊢
    rw [h]
    rfl
  | none =>
    unfold findRB findRBL at h ⊢
    dsimp only
    rw [find?_append_none _ h]
    have hk : rbKey nsName "tenant-owner" (ownerRoleBinding nsName ownerId) = true := by
      simp [rbKey, ownerRoleBinding]
    simp [List.find?, hk]

theorem ensureRBAC_mono (c : ClusterState) (nsName ownerId ns2 nm2 : String)
    (h : (findRB c ns2 nm2).isSome = true) :
    (findRB (ensureRBAC c nsName ownerId).1 ns2 nm2).isSome = true := by
  unfold ensureRBAC
  cases hf : findRB c nsName "tenant-owner" with
  | some r => exact h
  | none =>
    unfold findRB findRBL at h ⊢
    dsimp only
    obtain ⟨r, hr⟩ := Option.isSome_iff_exists.mp h
    rw [find?_append_some _ hr]
    rfl

theorem ensureRBAC_idem (c : ClusterState) (nsName ownerId : String)
    (h : (findRB c nsName "tenant-owner").isSome = true) :
    ensureRBAC c nsName ownerId = (c, []) := by
  unfold ensureRBAC
  obtain ⟨r, hr⟩ := Option.isSome_iff_exists.mp h
  rw [hr]

/-! #### `ensureNamespace` -/

theorem ensureNamespace_broken (c : ClusterState) (clusterName name : String)
    (t : Tenant) (hb : c.brokenNs.contains name = true) :
    ensureNamespace c clusterName name t =
      .error ("failed to check namespace " ++ name) := by
  unfold ensureNamespace
  simp only [hb, eq_self_iff_true, if_true]

theorem ensureNamespace_exists (c : ClusterState) (clusterName name : String)
    (t : Tenant) (o : NamespaceObj) (hb : c.brokenNs.contains name = false)
    (hf : findNs c name = some o) :
    ensureNamespace c clusterName name t = .ok (c, []) := by
  unfold ensureNamespace
  simp only [hb, Bool.false_eq_true, if_false]
  rw [hf]

theorem ensureNamespace_absent (c : ClusterState) (clusterName name : String)
    (t : Tenant) (hb : c.brokenNs.contains name = false)
    (hf : findNs c name = none) :
    ensureNamespace c clusterName name t =
      .ok ({ c with namespaces := c.namespaces ++ [⟨name, nsLabels t clusterName⟩] },
        [⟨.create, "namespace", "", name⟩]) := by
  unfold ensureNamespace
  simp only [hb, Bool.false_eq_true, if_false]
  rw [hf]

theorem findNsL_append_new (l : List NamespaceObj) (name : String)
    (labels : List (String × String)) (hf : findNsL l name = none) :
    findNsL (l ++ [⟨name, labels⟩]) name = some ⟨name, labels⟩ := by
  unfold findNsL at hf ⊢
  rw [find?_append_none _ hf]
  have hk : nsKey name (⟨name, labels⟩ : NamespaceObj) = true := by simp [nsKey]
  simp [List.find?, hk]

theorem findNsL_append_frame (l : List NamespaceObj) (name ns2 : String)
    (labels : List (String × String)) (hne : ns2 ≠ name) :
    findNsL (l ++ [⟨name, labels⟩]) ns2 = findNsL l ns2 := by
  unfold findNsL
  exact find?_append_single _ _ _ (nsKey_false _ rfl hne)

/-! #### `ensureServiceMesh` -/

theorem ensureServiceMesh_ok (c : ClusterState) (nsName : String) (o : NamespaceObj)
    (hb : c.brokenNs.contains nsName = false) (hf : findNs c nsName = some o) :
    ensureServiceMesh c nsName =
      .ok ({ c with namespaces := replaceBy (nsKey nsName) (meshLabeled o) c.namespaces },
        [⟨.update, "namespace", "", nsName⟩]) := by
  unfold ensureServiceMesh
  simp only [hb, Bool.false_eq_true, if_false]
  rw [hf]

theorem findNsL_replace (l : List NamespaceObj) (name : String) (o o2 : NamespaceObj)
    (hf : findNsL l name = some o) (h2 : o2.name = name) :
    findNsL (replaceBy (nsKey name) o2 l) name = some o2 := by
  unfold findNsL at hf ⊢
  refine find?_replaceBy _ hf ?_
  unfold nsKey
  rw [h2]
  simp

theorem findNsL_replace_frame (l : List NamespaceObj) (name ns2 : String)
    (o2 : NamespaceObj) (h2 : o2.name = name) (hne : ns2 ≠ name) :
    findNsL (replaceBy (nsKey name) o2 l) ns2 = findNsL l ns2 := by
  unfold findNsL
  refine find?_replaceBy_frame _ ?_ (nsKey_false _ h2 hne)
  intro x hx
  exact nsKey_false _ (nsKey_eq hx) hne

theorem ensureServiceMesh_idem (c : ClusterState) (nsName : String) (o : NamespaceObj)
    (hb : c.brokenNs.contains nsName = false) (hf : findNs c nsName = some o)
    (hl : lookupKV o.labels "istio-injection" = some "enabled") :
    ensureServiceMesh c nsName = .ok (c, [⟨.update, "namespace", "", nsName⟩]) := by
  rw [ensureServiceMesh_ok c nsName o hb hf]
  have hset : setKV o.labels "istio-injection" "enabled" = o.labels := setKV_self hl
  have hmo : meshLabeled o = o := by
    unfold meshLabeled
    rw [hset]
  rw [hmo]
  have hrep : replaceBy (nsKey nsName) o c.namespaces = c.namespaces :=
    replaceBy_self hf
  rw [hrep]

end Controller

namespace Controller

/-! #### Per-namespace convergence -/

/-- What a successful pass guarantees for one tenant namespace: the
namespace object exists (carrying the injection label when the mesh is
enabled), the quota equals the freshly built tenant quota exactly, every
declared policy object exists, and the owner role binding exists. -/
structure NsConverged (c : ClusterState) (t : Tenant) (nsName : String) : Prop where
  notBroken : c.brokenNs.contains nsName = false
  nsObj : ∃ o, findNs c nsName = some o ∧
    (t.serviceMeshEnable = true → lookupKV o.labels "istio-injection" = some "enabled")
  quotaOk : findQuota c nsName "tenant-quota" =
    some (mkTenantQuota nsName t.resourceLimits)
  denyIngressOk : t.networkPolicy.defaultDenyIngress = true →
    (findNetPol c nsName "default-deny-ingress").isSome = true
  denyEgressOk : t.networkPolicy.defaultDenyEgress = true →
    (findNetPol c nsName "default-deny-egress").isSome = true
  intraOk : t.networkPolicy.allowIntraNamespace = true →
    (findNetPol c nsName "allow-intra-namespace").isSome = true
  cidrOk : CidrConverged c nsName t.networkPolicy.allowIngressFromCIDR 0
  rbOk : (findRB c nsName "tenant-owner").isSome = true

theorem findNs_congr {c c2 : ClusterState} (h : c2.namespaces = c.namespaces)
    (ns : String) : findNs c2 ns = findNs c ns := by
  unfold findNs findNsL
  rw [h]

theorem findQuota_congr {c c2 : ClusterState} (h : c2.quotas = c.quotas)
    (ns nm : String) : findQuota c2 ns nm = findQuota c ns nm := by
  unfold findQuota findQuotaL
  rw [h]

theorem findNetPol_congr {c c2 : ClusterState} (h : c2.netpols = c.netpols)
    (ns nm : String) : findNetPol c2 ns nm = findNetPol c ns nm := by
  unfold findNetPol findNetPolL
  rw [h]

theorem findRB_congr {c c2 : ClusterState} (h : c2.roleBindings = c.roleBindings)
    (ns nm : String) : findRB c2 ns nm = findRB c ns nm := by
  unfold findRB findRBL
  rw [h]

/-- Characterisation of a successful `ensureNamespace`. -/
theorem ensureNamespace_ok_cases (c : ClusterState) (clusterName name : String)
    (t : Tenant) (c1 : ClusterState) (k1 : List Call)
    (h : ensureNamespace c clusterName name t = .ok (c1, k1)) :
    c.brokenNs.contains name = false ∧
    (c1 = c ∨
      (findNs c name = none ∧
       c1 = { c with namespaces := c.namespaces ++ [⟨name, nsLabels t clusterName⟩] })) := by
  by_cases hb : c.brokenNs.contains name = true
  · rw [ensureNamespace_broken c clusterName name t hb] at h
    cases h
  · have hb2 : c.brokenNs.contains name = false := by simpa using hb
    refine ⟨hb2, ?_⟩
    cases hf : findNs c name with
    | some o =>
      rw [ensureNamespace_exists c clusterName name t o hb2 hf] at h
      left
      cases h
      rfl
    | none =>
      rw [ensureNamespace_absent c clusterName name t hb2 hf] at h
      right
      cases h
      exact ⟨rfl, rfl⟩

/-- Characterisation of a successful `ensureServiceMesh`. -/
theorem ensureServiceMesh_ok_cases (c : ClusterState) (nsName : String)
    (c5 : ClusterState) (k5 : List Call)
    (h : ensureServiceMesh c nsName = .ok (c5, k5)) :
    ∃ o, findNs c nsName = some o ∧
      c5 = { c with namespaces := replaceBy (nsKey nsName) (meshLabeled o) c.namespaces } := by
  unfold ensureServiceMesh at h
  by_cases hb : c.brokenNs.contains nsName = true
  · simp only [hb, eq_self_iff_true, if_true] at h
    cases h
  · have hb2 : c.brokenNs.contains nsName = false := by simpa using hb
    simp only [hb2, Bool.false_eq_true, if_false] at h
    cases hf : findNs c nsName with
    | none =>
      rw [hf] at h
      cases h
    | some o =>
      rw [hf] at h
      refine ⟨o, rfl, ?_⟩
      cases h
      rfl

/-- A found namespace object carries the searched name. -/
theorem findNs_name {c : ClusterState} {nsName : String} {o : NamespaceObj}
    (h : findNs c nsName = some o) : o.name = nsName := by
  unfold findNs findNsL at h
  exact nsKey_eq (List.find?_some h)

end Controller

namespace Controller

/-- A successful namespace prelude makes the step sequence succeed and
converge the namespace. -/
theorem processNamespaceSteps_ok (c1 : ClusterState) (t : Tenant) (nsName : String)
    (o1 : NamespaceObj) (hb1 : c1.brokenNs.contains nsName = false)
    (hf1 : findNs c1 nsName = some o1) :
    ∃ c2 k, processNamespaceSteps c1 t nsName = (c2, k, none) ∧
      NsConverged c2 t nsName ∧ c2.brokenNs = c1.brokenNs := by
  unfold processNamespaceSteps
  dsimp only
  have A := ensureResourceQuota_fields c1 nsName t.resourceLimits
  have hq := ensureResourceQuota_quota c1 nsName t.resourceLimits
  have B := ensureNetworkPolicies_fields
    (ensureResourceQuota c1 nsName t.resourceLimits).1 nsName t.networkPolicy
  have hnp := ensureNetworkPolicies_establishes
    (ensureResourceQuota c1 nsName t.resourceLimits).1 nsName t.networkPolicy
  have C := ensureRBAC_fields
    (ensureNetworkPolicies (ensureResourceQuota c1 nsName t.resourceLimits).1
      nsName t.networkPolicy).1 nsName t.ownerId
  have hrb := ensureRBAC_isSome
    (ensureNetworkPolicies (ensureResourceQuota c1 nsName t.resourceLimits).1
      nsName t.networkPolicy).1 nsName t.ownerId
  have hrBroken : (ensureRBAC (ensureNetworkPolicies
      (ensureResourceQuota c1 nsName t.resourceLimits).1 nsName t.networkPolicy).1
      nsName t.ownerId).1.brokenNs = c1.brokenNs :=
    (C.2.2.2.trans B.2.2.2).trans A.2.2.2
  have hrNs : findNs (ensureRBAC (ensureNetworkPolicies
      (ensureResourceQuota c1 nsName t.resourceLimits).1 nsName t.networkPolicy).1
      nsName t.ownerId).1 nsName = some o1 := by
    rw [findNs_congr C.1, findNs_congr B.1, findNs_congr A.1]
    exact hf1
  have hrQuota : findQuota (ensureRBAC (ensureNetworkPolicies
      (ensureResourceQuota c1 nsName t.resourceLimits).1 nsName t.networkPolicy).1
      nsName t.ownerId).1 nsName "tenant-quota" =
      some (mkTenantQuota nsName t.resourceLimits) := by
    rw [findQuota_congr C.2.1, findQuota_congr B.2.1]
    exact hq
  have hrDi : t.networkPolicy.defaultDenyIngress = true →
      (findNetPol (ensureRBAC (ensureNetworkPolicies
        (ensureResourceQuota c1 nsName t.resourceLimits).1 nsName t.networkPolicy).1
        nsName t.ownerId).1 nsName "default-deny-ingress").isSome = true := by
    intro h
    rw [findNetPol_congr C.2.2.1]
    exact hnp.1 h
  have hrDe : t.networkPolicy.defaultDenyEgress = true →
      (findNetPol (ensureRBAC (ensureNetworkPolicies
        (ensureResourceQuota c1 nsName t.resourceLimits).1 nsName t.networkPolicy).1
        nsName t.ownerId).1 nsName "default-deny-egress").isSome = true := by
    intro h
    rw [findNetPol_congr C.2.2.1]
    exact hnp.2.1 h
  have hrIn : t.networkPolicy.allowIntraNamespace = true →
      (findNetPol (ensureRBAC (ensureNetworkPolicies
        (ensureResourceQuota c1 nsName t.resourceLimits).1 nsName t.networkPolicy).1
        nsName t.ownerId).1 nsName "allow-intra-namespace").isSome = true := by
    intro h
    rw [findNetPol_congr C.2.2.1]
    exact hnp.2.2.1 h
  have hrCidr : CidrConverged (ensureRBAC (ensureNetworkPolicies
      (ensureResourceQuota c1 nsName t.resourceLimits).1 nsName t.networkPolicy).1
      nsName t.ownerId).1 nsName t.networkPolicy.allowIngressFromCIDR 0 := by
    refine CidrConverged_mono ?_ _ _ hnp.2.2.2
    intro nm h
    rw [findNetPol_congr C.2.2.1]
    exact h
  have hbcr : (ensureRBAC (ensureNetworkPolicies
      (ensureResourceQuota c1 nsName t.resourceLimits).1 nsName t.networkPolicy).1
      nsName t.ownerId).1.brokenNs.contains nsName = false := by
    rw [hrBroken]
    exact hb1
  cases hsm : t.serviceMeshEnable with
  | false =>
    simp only [hsm, Bool.false_eq_true, if_false]
    refine ⟨_, _, rfl, ?_, hrBroken⟩
    refine ⟨hbcr, ⟨o1, hrNs, ?_⟩, hrQuota, hrDi, hrDe, hrIn, hrCidr, hrb⟩
    intro hm
    exact (Bool.false_ne_true (hsm.symm.trans hm)).elim
  | true =>
    simp only [hsm, eq_self_iff_true, if_true]
    rw [ensureServiceMesh_ok _ nsName o1 hbcr hrNs]
    refine ⟨_, _, rfl, ?_, hrBroken⟩
    refine ⟨hbcr, ⟨meshLabeled o1, ?_, ?_⟩, hrQuota, hrDi, hrDe, hrIn, ?_, hrb⟩
    · show findNsL (replaceBy (nsKey nsName) (meshLabeled o1) _) nsName = _
      refine findNsL_replace _ nsName o1 (meshLabeled o1) hrNs ?_
      show o1.name = nsName
      exact findNs_name hrNs
    · intro _
      exact lookupKV_setKV o1.labels "istio-injection" "enabled"
    · refine CidrConverged_mono ?_ _ _ hrCidr
      intro nm h
      exact h

/-- The step sequence for one namespace preserves the convergence of every
other namespace of the same tenant. -/
theorem processNamespaceSteps_frame (c1 : ClusterState) (t : Tenant)
    (nsName ns2 : String) (hne : ns2 ≠ nsName) (hcv : NsConverged c1 t ns2) :
    NsConverged (processNamespaceSteps c1 t nsName).1 t ns2 := by
  unfold processNamespaceSteps
  dsimp only
  have A := ensureResourceQuota_fields c1 nsName t.resourceLimits
  have B := ensureNetworkPolicies_fields
    (ensureResourceQuota c1 nsName t.resourceLimits).1 nsName t.networkPolicy
  have C := ensureRBAC_fields
    (ensureNetworkPolicies (ensureResourceQuota c1 nsName t.resourceLimits).1
      nsName t.networkPolicy).1 nsName t.ownerId
  have hneq : ¬(ns2 = nsName ∧ "tenant-quota" = "tenant-quota") :=
    fun h => hne h.1
  have hcvR : NsConverged (ensureRBAC (ensureNetworkPolicies
      (ensureResourceQuota c1 nsName t.resourceLimits).1 nsName t.networkPolicy).1
      nsName t.ownerId).1 t ns2 := by
    have hmono : ∀ nm, (findNetPol c1 ns2 nm).isSome = true →
        (findNetPol (ensureRBAC (ensureNetworkPolicies
          (ensureResourceQuota c1 nsName t.resourceLimits).1 nsName t.networkPolicy).1
          nsName t.ownerId).1 ns2 nm).isSome = true := by
      intro nm h
      rw [findNetPol_congr C.2.2.1]
      refine ensureNetworkPolicies_mono _ nsName t.networkPolicy ns2 nm ?_
      rw [findNetPol_congr A.2.1]
      exact h
    refine ⟨?_, ?_, ?_, ?_, ?_, ?_, ?_, ?_⟩
    · rw [(C.2.2.2.trans B.2.2.2).trans A.2.2.2]
      exact hcv.notBroken
    · obtain ⟨o, ho, hlab⟩ := hcv.nsObj
      refine ⟨o, ?_, hlab⟩
      rw [findNs_congr C.1, findNs_congr B.1, findNs_congr A.1]
      exact ho
    · rw [findQuota_congr C.2.1, findQuota_congr B.2.1,
        ensureResourceQuota_other c1 nsName t.resourceLimits ns2 "tenant-quota" hneq]
      exact hcv.quotaOk
    · intro h
      exact hmono _ (hcv.denyIngressOk h)
    · intro h
      exact hmono _ (hcv.denyEgressOk h)
    · intro h
      exact hmono _ (hcv.intraOk h)
    · exact CidrConverged_mono hmono _ _ hcv.cidrOk
    · refine ensureRBAC_mono _ nsName t.ownerId ns2 "tenant-owner" ?_
      rw [findRB_congr B.2.2.1, findRB_congr A.2.2.1]
      exact hcv.rbOk
  cases hsm : t.serviceMeshEnable with
  | false =>
    simp only [hsm, Bool.false_eq_true, if_false]
    exact hcvR
  | true =>
    simp only [hsm, eq_self_iff_true, if_true]
    cases hms : ensureServiceMesh (ensureRBAC (ensureNetworkPolicies
        (ensureResourceQuota c1 nsName t.resourceLimits).1 nsName t.networkPolicy).1
        nsName t.ownerId).1 nsName with
    | error e => exact hcvR
    | ok pr =>
      obtain ⟨c5, k5⟩ := pr
      obtain ⟨o, hfo, hc5⟩ := ensureServiceMesh_ok_cases _ nsName c5 k5 hms
      dsimp only
      rw [hc5]
      obtain ⟨o2, ho2, hlab2⟩ := hcvR.nsObj
      refine ⟨hcvR.notBroken, ⟨o2, ?_, hlab2⟩, hcvR.quotaOk, hcvR.denyIngressOk,
        hcvR.denyEgressOk, hcvR.intraOk, ?_, hcvR.rbOk⟩
      · have hname0 : o.name = nsName := findNs_name hfo
        have hname : (meshLabeled o).name = nsName := hname0
        show findNsL (replaceBy (nsKey nsName) (meshLabeled o) _) ns2 = some o2
        rw [findNsL_replace_frame _ nsName ns2 (meshLabeled o) hname hne]
        exact ho2
      · refine CidrConverged_mono ?_ _ _ hcvR.cidrOk
        intro nm h
        exact h

end Controller

namespace Controller

/-- On an already-converged namespace the step sequence is a no-op on the
cluster: the state is unchanged and only update calls are issued. -/
theorem processNamespaceSteps_idem (c1 : ClusterState) (t : Tenant) (nsName : String)
    (hcv : NsConverged c1 t nsName) :
    ∃ k, processNamespaceSteps c1 t nsName = (c1, k, none) ∧
      k.all (fun x => x.kind == CallKind.update) = true := by
  unfold processNamespaceSteps
  dsimp only
  rw [ensureResourceQuota_idem c1 nsName t.resourceLimits hcv.quotaOk]
  dsimp only
  rw [ensureNetworkPolicies_idem c1 nsName t.networkPolicy hcv.denyIngressOk
    hcv.denyEgressOk hcv.intraOk hcv.cidrOk]
  dsimp only
  rw [ensureRBAC_idem c1 nsName t.ownerId hcv.rbOk]
  dsimp only
  cases hsm : t.serviceMeshEnable with
  | false =>
    simp only [hsm, Bool.false_eq_true, if_false]
    exact ⟨_, rfl, rfl⟩
  | true =>
    simp only [hsm, eq_self_iff_true, if_true]
    obtain ⟨o, hfo, hlab⟩ := hcv.nsObj
    rw [ensureServiceMesh_idem c1 nsName o hcv.notBroken hfo (hlab hsm)]
    exact ⟨_, rfl, rfl⟩

/-- A non-broken namespace is processed successfully and ends converged. -/
theorem processOneNamespace_ok (c : ClusterState) (clusterName : String)
    (t : Tenant) (nsName : String) (hb : c.brokenNs.contains nsName = false) :
    ∃ c2 k, processOneNamespace c clusterName t nsName = (c2, k, none) ∧
      NsConverged c2 t nsName ∧ c2.brokenNs = c.brokenNs := by
  unfold processOneNamespace
  cases hf : findNs c nsName with
  | some o =>
    rw [ensureNamespace_exists c clusterName nsName t o hb hf]
    dsimp only
    obtain ⟨c2, k, hrun, hcv, hbk⟩ := processNamespaceSteps_ok c t nsName o hb hf
    rw [hrun]
    exact ⟨c2, [] ++ k, rfl, hcv, hbk⟩
  | none =>
    rw [ensureNamespace_absent c clusterName nsName t hb hf]
    dsimp only
    have hf2 : findNs { c with namespaces :=
        c.namespaces ++ [⟨nsName, nsLabels t clusterName⟩] } nsName =
        some ⟨nsName, nsLabels t clusterName⟩ :=
      findNsL_append_new c.namespaces nsName (nsLabels t clusterName) hf
    have hb2 : ({ c with namespaces :=
        c.namespaces ++ [⟨nsName, nsLabels t clusterName⟩] } :
        ClusterState).brokenNs.contains nsName = false := hb
    obtain ⟨c2, k, hrun, hcv, hbk⟩ := processNamespaceSteps_ok _ t nsName _ hb2 hf2
    rw [hrun]
    exact ⟨c2, [⟨.create, "namespace", "", nsName⟩] ++ k, rfl, hcv, hbk⟩

/-- Processing one namespace preserves the convergence of every other
namespace of the same tenant (whether or not it succeeds). -/
theorem processOneNamespace_frame (c : ClusterState) (clusterName : String)
    (t : Tenant) (nsName ns2 : String) (hne : ns2 ≠ nsName)
    (hcv : NsConverged c t ns2) :
    NsConverged (processOneNamespace c clusterName t nsName).1 t ns2 := by
  unfold processOneNamespace
  cases hE : ensureNamespace c clusterName nsName t with
  | error e => exact hcv
  | ok pr =>
    obtain ⟨c1, k1⟩ := pr
    obtain ⟨hb, hcs⟩ := ensureNamespace_ok_cases c clusterName nsName t c1 k1 hE
    dsimp only
    have hcv1 : NsConverged c1 t ns2 := by
      rcases hcs with rfl | ⟨hfnone, rfl⟩
      · exact hcv
      · obtain ⟨o, ho, hlab⟩ := hcv.nsObj
        refine ⟨hcv.notBroken, ⟨o, ?_, hlab⟩, hcv.quotaOk, hcv.denyIngressOk,
          hcv.denyEgressOk, hcv.intraOk, ?_, hcv.rbOk⟩
        · show findNsL (c.namespaces ++ [⟨nsName, nsLabels t clusterName⟩]) ns2 = some o
          rw [findNsL_append_frame c.namespaces nsName ns2 (nsLabels t clusterName) hne]
          exact ho
        · refine CidrConverged_mono ?_ _ _ hcv.cidrOk
          intro nm h
          exact h
    exact processNamespaceSteps_frame c1 t nsName ns2 hne hcv1

/-- On an already-converged namespace the whole loop body is a no-op on
the cluster and issues only update calls. -/
theorem processOneNamespace_idem (c : ClusterState) (clusterName : String)
    (t : Tenant) (nsName : String) (hcv : NsConverged c t nsName) :
    ∃ k, processOneNamespace c clusterName t nsName = (c, k, none) ∧
      k.all (fun x => x.kind == CallKind.update) = true := by
  unfold processOneNamespace
  obtain ⟨o, hfo, _⟩ := hcv.nsObj
  rw [ensureNamespace_exists c clusterName nsName t o hcv.notBroken hfo]
  dsimp only
  obtain ⟨k, hrun, hall⟩ := processNamespaceSteps_idem c t nsName hcv
  rw [hrun]
  exact ⟨[] ++ k, rfl, hall⟩

/-- Every outcome of the loop body leaves the fault channel unchanged. -/
theorem processOneNamespace_brokenNs (c : ClusterState) (clusterName : String)
    (t : Tenant) (nsName : String) :
    (processOneNamespace c clusterName t nsName).1.brokenNs = c.brokenNs := by
  unfold processOneNamespace
  cases hE : ensureNamespace c clusterName nsName t with
  | error e => rfl
  | ok pr =>
    obtain ⟨c1, k1⟩ := pr
    obtain ⟨hb, hcs⟩ := ensureNamespace_ok_cases c clusterName nsName t c1 k1 hE
    dsimp only
    have hsteps : (processNamespaceSteps c1 t nsName).1.brokenNs = c1.brokenNs := by
      unfold processNamespaceSteps
      dsimp only
      have A := ensureResourceQuota_fields c1 nsName t.resourceLimits
      have B := ensureNetworkPolicies_fields
        (ensureResourceQuota c1 nsName t.resourceLimits).1 nsName t.networkPolicy
      have C := ensureRBAC_fields
        (ensureNetworkPolicies (ensureResourceQuota c1 nsName t.resourceLimits).1
          nsName t.networkPolicy).1 nsName t.ownerId
      have hchain := (C.2.2.2.trans B.2.2.2).trans A.2.2.2
      cases hsm : t.serviceMeshEnable with
      | false =>
        simp only [hsm, Bool.false_eq_true, if_false]
        exact hchain
      | true =>
        simp only [hsm, eq_self_iff_true, if_true]
        cases hms : ensureServiceMesh (ensureRBAC (ensureNetworkPolicies
            (ensureResourceQuota c1 nsName t.resourceLimits).1 nsName t.networkPolicy).1
            nsName t.ownerId).1 nsName with
        | error e => exact hchain
        | ok pr2 =>
          obtain ⟨c5, k5⟩ := pr2
          obtain ⟨o, hfo, hc5⟩ := ensureServiceMesh_ok_cases _ nsName c5 k5 hms
          dsimp only
          rw [hc5]
          exact hchain
    rcases hcs with rfl | ⟨hfnone, rfl⟩
    · exact hsteps
    · exact hsteps

end Controller

namespace Controller

/-- A full pass over a namespace list with no injected faults succeeds,
converges every listed namespace, and preserves any namespace already
converged. -/
theorem processNamespaceList_ok (clusterName : String) (t : Tenant)
    (L : List String) :
    ∀ (c : ClusterState), (∀ n ∈ L, c.brokenNs.contains n = false) →
    ∃ c2 k, processNamespaceList clusterName t c L = (c2, k, none) ∧
      c2.brokenNs = c.brokenNs ∧
      (∀ n ∈ L, NsConverged c2 t n) ∧
      (∀ m, NsConverged c t m → NsConverged c2 t m) := by
  induction L with
  | nil =>
    intro c _
    exact ⟨c, [], rfl, rfl, by simp, fun m hm => hm⟩
  | cons ns rest ih =>
    intro c hall
    have hb : c.brokenNs.contains ns = false := hall ns (by simp)
    obtain ⟨c1, k1, hrun1, hcv1, hbk1⟩ := processOneNamespace_ok c clusterName t ns hb
    have hall1 : ∀ n ∈ rest, c1.brokenNs.contains n = false := by
      intro n hn
      rw [hbk1]
      exact hall n (List.mem_cons_of_mem _ hn)
    obtain ⟨c2, k2, hrun2, hbk2, hconv2, hpres2⟩ := ih c1 hall1
    have hpres1 : ∀ m, NsConverged c t m → NsConverged c1 t m := by
      intro m hm
      by_cases hmn : m = ns
      · subst hmn
        exact hcv1
      · have hfr := processOneNamespace_frame c clusterName t ns m hmn hm
        rw [hrun1] at hfr
        exact hfr
    refine ⟨c2, k1 ++ k2, ?_, hbk2.trans hbk1, ?_, ?_⟩
    · unfold processNamespaceList
      rw [hrun1]
      dsimp only
      rw [hrun2]
    · intro n hn
      rcases List.mem_cons.mp hn with rfl | hn2
      · exact hpres2 n hcv1
      · exact hconv2 n hn2
    · intro m hm
      exact hpres2 m (hpres1 m hm)

/-- A second pass over already-converged namespaces leaves the cluster
unchanged and issues only update calls. -/
theorem processNamespaceList_idem (clusterName : String) (t : Tenant)
    (L : List String) :
    ∀ (c : ClusterState), (∀ n ∈ L, NsConverged c t n) →
    ∃ k, processNamespaceList clusterName t c L = (c, k, none) ∧
      k.all (fun x => x.kind == CallKind.update) = true := by
  induction L with
  | nil => intro c _; exact ⟨[], rfl, rfl⟩
  | cons ns rest ih =>
    intro c hall
    obtain ⟨k1, hrun1, hall1⟩ :=
      processOneNamespace_idem c clusterName t ns (hall ns (by simp))
    obtain ⟨k2, hrun2, hall2⟩ := ih c (fun n hn => hall n (List.mem_cons_of_mem _ hn))
    refine ⟨k1 ++ k2, ?_, ?_⟩
    · unfold processNamespaceList
      rw [hrun1]
      dsimp only
      rw [hrun2]
    · rw [List.all_append, hall1, hall2]
      rfl

/-- Any outcome of the namespace loop preserves the fault channel. -/
theorem processNamespaceList_brokenNs (clusterName : String) (t : Tenant) :
    ∀ (L : List String) (c : ClusterState),
    (processNamespaceList clusterName t c L).1.brokenNs = c.brokenNs := by
  intro L
  induction L with
  | nil => intro c; rfl
  | cons ns rest ih =>
    intro c
    have hbrk := processOneNamespace_brokenNs c clusterName t ns
    unfold processNamespaceList
    cases hp : processOneNamespace c clusterName t ns with
    | mk c1 kr =>
      obtain ⟨k1, err⟩ := kr
      rw [hp] at hbrk
      cases err with
      | some e =>
        dsimp only
        exact hbrk
      | none =>
        dsimp only
        rw [ih c1]
        exact hbrk

theorem processTenant_ok (c : ClusterState) (clusterName : String) (t : Tenant)
    (hall : ∀ n ∈ t.namespaces, c.brokenNs.contains n = false) :
    ∃ c2 k, processTenant c clusterName t = (c2, k, none) ∧
      c2.brokenNs = c.brokenNs ∧
      (∀ n ∈ t.namespaces, NsConverged c2 t n) ∧
      (∀ m, NsConverged c t m → NsConverged c2 t m) :=
  processNamespaceList_ok clusterName t t.namespaces c hall

theorem processTenant_idem (c : ClusterState) (clusterName : String) (t : Tenant)
    (hall : ∀ n ∈ t.namespaces, NsConverged c t n) :
    ∃ k, processTenant c clusterName t = (c, k, none) ∧
      k.all (fun x => x.kind == CallKind.update) = true :=
  processNamespaceList_idem clusterName t t.namespaces c hall

theorem processTenant_brokenNs (c : ClusterState) (clusterName : String)
    (t : Tenant) : (processTenant c clusterName t).1.brokenNs = c.brokenNs :=
  processNamespaceList_brokenNs clusterName t t.namespaces c

theorem reconcileTenants_brokenNs (clusterName : String) :
    ∀ (ts : List Tenant) (c : ClusterState),
    (reconcileTenants clusterName c ts).1.brokenNs = c.brokenNs := by
  intro ts
  induction ts with
  | nil => intro c; rfl
  | cons t0 rest ih =>
    intro c
    unfold reconcileTenants
    dsimp only
    rw [ih (processTenant c clusterName t0).1]
    exact processTenant_brokenNs c clusterName t0

/-- However many earlier tenants fail, a later tenant whose namespaces are
fault-free is still fully processed by the tick and ends converged. -/
theorem reconcileTenants_last (clusterName : String) (t : Tenant) :
    ∀ (ts : List Tenant) (c : ClusterState),
    (∀ n ∈ t.namespaces, c.brokenNs.contains n = false) →
    ∀ n ∈ t.namespaces,
      NsConverged (reconcileTenants clusterName c (ts ++ [t])).1 t n := by
  intro ts
  induction ts with
  | nil =>
    intro c hall n hn
    obtain ⟨c2, k, hrun, hbk, hconv, hpres⟩ := processTenant_ok c clusterName t hall
    simp only [List.nil_append, reconcileTenants]
    rw [hrun]
    dsimp only
    exact hconv n hn
  | cons t0 ts0 ih =>
    intro c hall n hn
    simp only [List.cons_append]
    unfold reconcileTenants
    dsimp only
    refine ih (processTenant c clusterName t0).1 ?_ n hn
    intro n2 hn2
    rw [processTenant_brokenNs]
    exact hall n2 hn2

end Controller

namespace Controller

/-! ### Claim theorems about the reconciler -/

/-- The empty cluster. -/
def emptyCluster : ClusterState := ⟨[], [], [], [], []⟩

/-- A mutating call relevant to the idempotence claim. -/
def isCreateOrUpdate (k : Call) : Bool :=
  k.kind == CallKind.create || k.kind == CallKind.update

/-- The first reconcile tick from an empty cluster. -/
def firstTick : ClusterState × List Call := reconcile emptyCluster "test-cluster"

/-- The second reconcile tick, with the tenant spec and cluster unchanged. -/
def secondTick : ClusterState × List Call := reconcile firstTick.1 "test-cluster"

/-- C2 counterexample: against an unchanged tenant spec and the unchanged
cluster produced by a successful first pass, the second reconcile tick
still issues mutating calls (one ResourceQuota `Update` and one namespace
`Update` per tenant namespace), refuting the zero-create-or-update claim. -/
theorem c2_second_pass_issues_calls :
    (secondTick.2.filter isCreateOrUpdate).length ≠ 0 := by decide

/-- C2 (amended): with an unchanged spec and unchanged cluster, the second
per-tenant pass issues zero create calls and leaves the cluster state
exactly unchanged; the calls it does issue are all updates (the
unconditional quota `Update` and mesh-label namespace `Update`). -/
theorem c2_second_pass_no_creates (c : ClusterState) (clusterName : String)
    (t : Tenant) (hall : ∀ n ∈ t.namespaces, c.brokenNs.contains n = false) :
    ∃ c1 k1 k2, processTenant c clusterName t = (c1, k1, none) ∧
      processTenant c1 clusterName t = (c1, k2, none) ∧
      k2.all (fun x => x.kind == CallKind.update) = true := by
  obtain ⟨c1, k1, hrun, _, hconv, _⟩ := processTenant_ok c clusterName t hall
  obtain ⟨k2, hrun2, hupd⟩ := processTenant_idem c1 clusterName t hconv
  exact ⟨c1, k1, k2, hrun, hrun2, hupd⟩

/-- C2 witness: concrete instance of `c2_second_pass_no_creates`. -/
theorem c2_second_pass_no_creates_witness :
    (∀ n ∈ tenantAlpha.namespaces, emptyCluster.brokenNs.contains n = false) ∧
    (∃ c1 k1 k2, processTenant emptyCluster "test-cluster" tenantAlpha = (c1, k1, none) ∧
      processTenant c1 "test-cluster" tenantAlpha = (c1, k2, none) ∧
      k2.all (fun x => x.kind == CallKind.update) = true) :=
  ⟨by decide, c2_second_pass_no_creates emptyCluster "test-cluster" tenantAlpha (by decide)⟩

/-- A cluster where the namespace API fails (non-NotFound) for `ns-bad`. -/
def brokenCluster : ClusterState := ⟨[], [], [], [], ["ns-bad"]⟩

/-- A tenant whose first namespace hits the injected API failure. -/
def twoNsTenant : Tenant :=
  { id := "t-bad", name := "bad-tenant", ownerId := "user-9"
    namespaces := ["ns-bad", "ns-good"]
    resourceLimits := ⟨"1", "1Gi", "10Gi", 5, 5, 5⟩
    networkPolicy := ⟨[], [], false, false, false, false, []⟩
    serviceMeshEnable := false }

/-- C6 counterexample: a failure on the first namespace of a tenant aborts
the tenant's loop — the subsequent namespace `ns-good`, although absent
and fault-free, is not created during the tick, refuting the claim that
every subsequent namespace of the same tenant is still processed. -/
theorem c6_namespace_failure_aborts_tenant :
    (processTenant brokenCluster "test-cluster" twoNsTenant).2.2.isSome = true ∧
    findNs (processTenant brokenCluster "test-cluster" twoNsTenant).1 "ns-good" = none ∧
    brokenCluster.brokenNs.contains "ns-good" = false := by decide

/-- C6 (amended): a failure while processing one tenant is logged and does
not abort the tick — however many earlier tenants fail, a later tenant
whose namespaces are fault-free is still fully processed and converged.
(Within a single tenant the source returns on the first failing namespace,
so the remaining namespaces of that tenant are skipped; see the
counterexample.) -/
theorem c6_subsequent_tenants_processed (c : ClusterState) (clusterName : String)
    (ts : List Tenant) (t : Tenant)
    (hall : ∀ n ∈ t.namespaces, c.brokenNs.contains n = false) :
    ∀ n ∈ t.namespaces,
      NsConverged (reconcileTenants clusterName c (ts ++ [t])).1 t n :=
  reconcileTenants_last clusterName t ts c hall

/-- C6 witness: concrete instance of `c6_subsequent_tenants_processed`,
with the failing tenant `twoNsTenant` ahead of the healthy `tenantAlpha`
in the same tick. -/
theorem c6_subsequent_tenants_processed_witness :
    (∀ n ∈ tenantAlpha.namespaces, brokenCluster.brokenNs.contains n = false) ∧
    (∀ n ∈ tenantAlpha.namespaces,
      NsConverged (reconcileTenants "test-cluster" brokenCluster
        ([twoNsTenant] ++ [tenantAlpha])).1 tenantAlpha n) :=
  ⟨by decide, c6_subsequent_tenants_processed brokenCluster "test-cluster"
    [twoNsTenant] tenantAlpha (by decide)⟩

/-- A tenant declaring one ingress CIDR for one namespace. -/
def cidrTenant : Tenant :=
  { id := "tenant-c", name := "team-c", ownerId := "user-c"
    namespaces := ["ns1"]
    resourceLimits := ⟨"2", "4Gi", "10Gi", 10, 5, 50⟩
    networkPolicy := ⟨["10.0.0.0/8"], [], false, false, false, false, []⟩
    serviceMeshEnable := false }

/-- The same tenant after the CIDR entry is removed from the declaration. -/
def cidrTenantRemoved : Tenant :=
  { cidrTenant with networkPolicy :=
      { cidrTenant.networkPolicy with allowIngressFromCIDR := [] } }

/-- C8: after the CIDR is removed from `AllowIngressFromCIDR` and the
reconciler runs again (successfully), the previously created per-index
policy object `allow-ingress-cidr-0` still exists in the namespace — the
reconciler never deletes policy objects, so the target invariant of the
claim is not met by the code. -/
theorem c8_stale_cidr_policy_persists :
    cidrTenantRemoved.networkPolicy.allowIngressFromCIDR = [] ∧
    (processTenant (processTenant emptyCluster "test-cluster" cidrTenant).1
      "test-cluster" cidrTenantRemoved).2.2 = none ∧
    (findNetPol (processTenant (processTenant emptyCluster "test-cluster" cidrTenant).1
      "test-cluster" cidrTenantRemoved).1 "ns1" "allow-ingress-cidr-0").isSome = true := by
  decide

/-- One hard entry of the tenant quota in a namespace, `none` when absent. -/
def quotaHardEntry (c : ClusterState) (nsName key : String) : Option (Option String) :=
  (findQuota c nsName "tenant-quota").map (fun q => List.lookup key q.hard)

/-- C9 counterexample: the tenant declares `endpoints = 100`, yet the
quota object a successful pass installs has no `endpoints` hard entry at
all (while e.g. the declared pods limit does appear), so the quota's hard
limits do not equal the declared ResourceLimits exactly. -/
theorem c9_endpoints_limit_not_enforced :
    tenantAlpha.resourceLimits.endpoints = 100 ∧
    quotaHardEntry (processTenant emptyCluster "test-cluster" tenantAlpha).1
      "team-alpha-dev" "endpoints" = some none ∧
    quotaHardEntry (processTenant emptyCluster "test-cluster" tenantAlpha).1
      "team-alpha-dev" "pods" = some (some "20") := by decide

/-- C9 (amended): each successful pass ensures, in every tenant namespace,
a single ResourceQuota deterministically named `tenant-quota` (created if
absent, updated otherwise) whose hard limits carry the declared CPU,
memory, storage (as ephemeral-storage), pods and services values verbatim,
with CPU and memory mirrored into the requests/limits entries; the
declared endpoints limit is not carried into the quota. -/
theorem c9_quota_carries_declared_limits (c : ClusterState) (clusterName : String)
    (t : Tenant) (hall : ∀ n ∈ t.namespaces, c.brokenNs.contains n = false) :
    ∀ n ∈ t.namespaces,
      findQuota (processTenant c clusterName t).1 n "tenant-quota" =
        some (mkTenantQuota n t.resourceLimits) ∧
      (mkTenantQuota n t.resourceLimits).hard =
        [("cpu", t.resourceLimits.cpu), ("memory", t.resourceLimits.memory),
         ("ephemeral-storage", t.resourceLimits.storage),
         ("pods", toString t.resourceLimits.pods),
         ("services", toString t.resourceLimits.services),
         ("requests.cpu", t.resourceLimits.cpu),
         ("requests.memory", t.resourceLimits.memory),
         ("limits.cpu", t.resourceLimits.cpu),
         ("limits.memory", t.resourceLimits.memory)] := by
  intro n hn
  obtain ⟨c2, k, hrun, _, hconv, _⟩ := processTenant_ok c clusterName t hall
  constructor
  · rw [hrun]
    exact (hconv n hn).quotaOk
  · rfl

/-- C9 witness: concrete instance of `c9_quota_carries_declared_limits`. -/
theorem c9_quota_carries_declared_limits_witness :
    (∀ n ∈ tenantAlpha.namespaces, emptyCluster.brokenNs.contains n = false) ∧
    (∀ n ∈ tenantAlpha.namespaces,
      findQuota (processTenant emptyCluster "test-cluster" tenantAlpha).1 n
        "tenant-quota" = some (mkTenantQuota n tenantAlpha.resourceLimits) ∧
      (mkTenantQuota n tenantAlpha.resourceLimits).hard =
        [("cpu", tenantAlpha.resourceLimits.cpu),
         ("memory", tenantAlpha.resourceLimits.memory),
         ("ephemeral-storage", tenantAlpha.resourceLimits.storage),
         ("pods", toString tenantAlpha.resourceLimits.pods),
         ("services", toString tenantAlpha.resourceLimits.services),
         ("requests.cpu", tenantAlpha.resourceLimits.cpu),
         ("requests.memory", tenantAlpha.resourceLimits.memory),
         ("limits.cpu", tenantAlpha.resourceLimits.cpu),
         ("limits.memory", tenantAlpha.resourceLimits.memory)]) :=
  ⟨by decide, c9_quota_carries_declared_limits emptyCluster "test-cluster"
    tenantAlpha (by decide)⟩

end Controller
